import Mathlib

/-
Verification of the obsidian-canvasLMS synchronization core.

Shallow embedding of the upload pipeline: the HTML normalizer
(src/canvas/html-normalizer.ts), the change comparator (comparator.ts),
the link resolver (src/upload/link-resolver.ts), the markdown parser's
item-body loop (src/upload/parser.ts) and the three-phase upload
orchestrator (src/upload/uploader.ts).

Modelling conventions:
- JavaScript strings are Lean `String`s; character-level transformations
  work on `List Char` and are wrapped back into `String`.
- Each JavaScript regular-expression `replace` is embedded as an anchored
  matcher applied at every position left to right (exactly the semantics
  of `String.prototype.replace` with the `g` flag: a failed attempt at a
  position advances one character; a successful match is replaced and
  scanning resumes after the match, the replacement itself is not
  rescanned).
- TypeScript `T | undefined` fields become `Option`; `T | null` fields
  become `NullOr`.  Where the code distinguishes `undefined` from `null`
  (strict `!==`), the embedding does too.
- Numbers carried by the compared fields (assignment points) are modelled
  as `Rat`; only equality of numbers is ever used by the code under
  verification.
-/

namespace CanvasSync

/-! ## JavaScript string primitives -/

/-- JS `\w` character class: `[A-Za-z0-9_]`. -/
def isWordChar (c : Char) : Bool := c.isAlphanum || c = '_'

/-- JS `\s` character class (the subset of code points that can occur in
the texts handled by this development). -/
def isJsSpace (c : Char) : Bool :=
  c = ' ' || c = '\t' || c = '\n' || c = '\r' || c = '\x0b' || c = '\x0c' ||
  c = '\u00A0' || c = '\uFEFF'

/-- Greedy character-class run: splits a list into the maximal prefix whose
characters satisfy `p` and the remainder (the JS regex `X*` / `X+` on a
character class, whose greedy match never backtracks past the class). -/
def spanP (p : Char → Bool) : List Char → List Char × List Char
  | [] => ([], [])
  | c :: cs =>
    if p c then
      let r := spanP p cs
      (c :: r.1, r.2)
    else ([], c :: cs)

/-- Anchored literal-prefix match: `some rest` when `pat` is a prefix of
`l`, returning the remainder. -/
def stripPre : List Char → List Char → Option (List Char)
  | [], l => some l
  | _ :: _, [] => none
  | p :: ps, c :: cs => if c = p then stripPre ps cs else none

/-- Fuel-driven global regex replace.  `step` is the anchored matcher: at a
position it either yields `(replacement, rest-after-match)` or fails.  Every
matcher used in this file consumes at least one character on success, so
fuel equal to the input length is always sufficient and the fuel clause is
never reached. -/
def scanF (step : List Char → Option (List Char × List Char)) :
    Nat → List Char → List Char
  | _, [] => []
  | 0, l => l
  | fuel + 1, c :: cs =>
    match step (c :: cs) with
    | some (out, rest) => out ++ scanF step fuel rest
    | none => c :: scanF step fuel cs

/-- Run a global regex replace over a character list. -/
def scanRun (step : List Char → Option (List Char × List Char))
    (l : List Char) : List Char :=
  scanF step l.length l

/-- Anchored matcher for a literal pattern (a regex with no metacharacters). -/
def stepLit (pat repl : List Char) (l : List Char) :
    Option (List Char × List Char) :=
  if pat.isEmpty then none
  else (stripPre pat l).map (fun rest => (repl, rest))

/-- JS `str.replace(new RegExp(literal), repl)` with the `g` flag. -/
def replaceAllLit (pat repl l : List Char) : List Char :=
  scanRun (stepLit pat repl) l

def digitsVal (ds : List Char) : Nat :=
  ds.foldl (fun n c => n * 10 + (c.toNat - 48)) 0

def isHexDigit (c : Char) : Bool :=
  c.isDigit || ('a' ≤ c && c ≤ 'f') || ('A' ≤ c && c ≤ 'F')

def hexDigitVal (c : Char) : Nat :=
  if c.isDigit then c.toNat - 48
  else if 'a' ≤ c && c ≤ 'f' then c.toNat - 87
  else c.toNat - 55

def hexVal (ds : List Char) : Nat :=
  ds.foldl (fun n c => n * 16 + hexDigitVal c) 0

/-- JS `String.fromCharCode`: the argument is reduced mod 2^16.  Code
points in the surrogate range are not valid Lean `Char`s and fall back to
`Char.ofNat`'s default; no input of this development produces them. -/
def jsFromCharCode (n : Nat) : Char := Char.ofNat (n % 65536)

/-- JS `String.prototype.trim` (same whitespace class as `\s` here). -/
def trimChars (l : List Char) : List Char :=
  ((l.dropWhile isJsSpace).reverse.dropWhile isJsSpace).reverse

def jsTrim (s : String) : String := ⟨trimChars s.data⟩

/-- JS `String.prototype.toLowerCase` (ASCII range; the texts compared by
the code are ASCII once the normalizer has folded punctuation). -/
def jsToLower (s : String) : String := ⟨s.data.map Char.toLower⟩

/-! ## html-normalizer.ts : decodeHtmlEntities -/

/-- The named-entity table of `decodeHtmlEntities`, in source order. -/
def namedEntities : List (String × String) :=
  [("&nbsp;", " "), ("&amp;", "&"), ("&lt;", "<"), ("&gt;", ">"),
   ("&quot;", "\""), ("&#39;", "\x27"), ("&apos;", "\x27"),
   ("&ndash;", "–"), ("&mdash;", "—"),
   ("&lsquo;", "\x27"), ("&rsquo;", "\x27"),
   ("&ldquo;", "\""), ("&rdquo;", "\""), ("&hellip;", "...")]

/-- Matcher for `&#(\d+);`. -/
def stepDecEntity (l : List Char) : Option (List Char × List Char) :=
  match l with
  | '&' :: '#' :: r =>
    let s := spanP Char.isDigit r
    if s.1 = [] then none
    else
      match s.2 with
      | ';' :: rest => some ([jsFromCharCode (digitsVal s.1)], rest)
      | _ => none
  | _ => none

/-- Matcher for `&#x([0-9a-f]+);` with the `i` flag. -/
def stepHexEntity (l : List Char) : Option (List Char × List Char) :=
  match l with
  | '&' :: '#' :: x :: r =>
    if x = 'x' || x = 'X' then
      let s := spanP isHexDigit r
      if s.1 = [] then none
      else
        match s.2 with
        | ';' :: rest => some ([jsFromCharCode (hexVal s.1)], rest)
        | _ => none
    else none
  | _ => none

/-- `decodeHtmlEntities`: the named table in insertion order, then decimal
numeric references, then hexadecimal ones. -/
def decodeHtmlEntities (l : List Char) : List Char :=
  let l := namedEntities.foldl
    (fun acc e => replaceAllLit e.1.data e.2.data acc) l
  let l := scanRun stepDecEntity l
  scanRun stepHexEntity l

/-! ## html-normalizer.ts : stripHtmlTags -/

/-- Matcher for `<br\s*\/?>` with the `i` flag. -/
def stepBrTag (l : List Char) : Option (List Char × List Char) :=
  match l with
  | '<' :: c1 :: c2 :: r =>
    if (c1 = 'b' || c1 = 'B') && (c2 = 'r' || c2 = 'R') then
      let s := spanP isJsSpace r
      match s.2 with
      | '/' :: '>' :: rest => some ([' '], rest)
      | '>' :: rest => some ([' '], rest)
      | _ => none
    else none
  | _ => none

/-- Matcher for `<[^>]+>`. -/
def stepTag (l : List Char) : Option (List Char × List Char) :=
  match l with
  | '<' :: r =>
    let s := spanP (fun c => c ≠ '>') r
    if s.1 = [] then none
    else
      match s.2 with
      | '>' :: rest => some ([], rest)
      | _ => none
  | _ => none

/-- `stripHtmlTags`: break tags become a space, every other tag is removed. -/
def stripHtmlTags (l : List Char) : List Char :=
  scanRun stepTag (scanRun stepBrTag l)

/-! ## html-normalizer.ts : normalizeUnicode -/

/-- `normalizeUnicode`: smart quotes, dashes, ellipsis and non-breaking
space folded to ASCII, in the source's pass order. -/
def normalizeUnicode (l : List Char) : List Char :=
  let l := l.map (fun c =>
    if c = '‘' || c = '’' || c = '‚' || c = '‛'
    then '\x27' else c)
  let l := l.map (fun c =>
    if c = '“' || c = '”' || c = '„' || c = '‟'
    then '"' else c)
  let l := l.map (fun c =>
    if c = '–' || c = '—' || c = '―' then '-' else c)
  let l := replaceAllLit ['…'] "...".data l
  l.map (fun c => if c = '\u00A0' then ' ' else c)

/-! ## html-normalizer.ts : normalizeHtml steps 4-9 -/

/-- The backtick character (avoids a code-span delimiter in this file). -/
def backtickChar : Char := Char.ofNat 96

/-- Escapable class of `normalizeHtml` step 4. -/
def normEscClass : List Char :=
  ['_', '*', '[', ']', '\\', backtickChar, '#', '+', '-']

/-- Matcher for a backslash escape `\\(cls)` replaced by the bare character. -/
def stepUnescape (cls : List Char) (l : List Char) :
    Option (List Char × List Char) :=
  match l with
  | '\\' :: c :: rest => if cls.contains c then some ([c], rest) else none
  | _ => none

/-- Matcher for the scheme part `https?:\/\/` of the URL patterns,
returning the matched scheme characters and the remainder. -/
def matchScheme (l : List Char) : Option (List Char × List Char) :=
  match l with
  | 'h' :: 't' :: 't' :: 'p' :: r =>
    match r with
    | 's' :: ':' :: '/' :: '/' :: rest => some ("https://".data, rest)
    | ':' :: '/' :: '/' :: rest => some ("http://".data, rest)
    | _ => none
  | _ => none

/-- Matcher for `\[(https?:\/\/[^\]]+)\]\(\1\)` (link text equal to the
URL, checked by the backreference). -/
def stepUrlSelfLink (l : List Char) : Option (List Char × List Char) :=
  match l with
  | '[' :: r0 =>
    match matchScheme r0 with
    | some (sch, r1) =>
      let s := spanP (fun c => c ≠ ']') r1
      if s.1 = [] then none
      else
        match s.2 with
        | ']' :: '(' :: r3 =>
          let url := sch ++ s.1
          match stripPre url r3 with
          | some (')' :: r5) => some (url, r5)
          | _ => none
        | _ => none
    | none => none
  | _ => none

/-- Matcher for `\[(https?:\/\/[^\]]+)\]`. -/
def stepUrlBracket (l : List Char) : Option (List Char × List Char) :=
  match l with
  | '[' :: r0 =>
    match matchScheme r0 with
    | some (sch, r1) =>
      let s := spanP (fun c => c ≠ ']') r1
      if s.1 = [] then none
      else
        match s.2 with
        | ']' :: rest => some (sch ++ s.1, rest)
        | _ => none
    | none => none
  | _ => none

/-- Matcher for `\((https?:\/\/[^)]+)\)`. -/
def stepUrlParen (l : List Char) : Option (List Char × List Char) :=
  match l with
  | '(' :: r0 =>
    match matchScheme r0 with
    | some (sch, r1) =>
      let s := spanP (fun c => c ≠ ')') r1
      if s.1 = [] then none
      else
        match s.2 with
        | ')' :: rest => some (sch ++ s.1, rest)
        | _ => none
    | none => none
  | _ => none

/-- Matcher for `_+(\[)`. -/
def stepUnderscoreBracketL (l : List Char) : Option (List Char × List Char) :=
  match l with
  | '_' :: r =>
    let s := spanP (fun c => c = '_') r
    match s.2 with
    | '[' :: rest => some (['['], rest)
    | _ => none
  | _ => none

/-- Matcher for `(\])_+`. -/
def stepUnderscoreBracketR (l : List Char) : Option (List Char × List Char) :=
  match l with
  | ']' :: r =>
    let s := spanP (fun c => c = '_') r
    if s.1 = [] then none else some ([']'], s.2)
  | _ => none

/-- Matcher for `__{2,}` (three or more consecutive underscores). -/
def stepUnderscoreRun (l : List Char) : Option (List Char × List Char) :=
  match l with
  | '_' :: r =>
    let s := spanP (fun c => c = '_') r
    if s.1.length ≥ 2 then some ([], s.2) else none
  | _ => none

/-- Matcher for `\s_+\s` replaced by a single space. -/
def stepUnderscoreAlone (l : List Char) : Option (List Char × List Char) :=
  match l with
  | c :: r =>
    if isJsSpace c then
      let s := spanP (fun x => x = '_') r
      if s.1 = [] then none
      else
        match s.2 with
        | d :: rest => if isJsSpace d then some ([' '], rest) else none
        | [] => none
    else none
  | [] => none

/-- Matcher for `\s*-\s*` replaced by a bare hyphen. -/
def stepDashSpacing (l : List Char) : Option (List Char × List Char) :=
  let s := spanP isJsSpace l
  match s.2 with
  | '-' :: r =>
    let t := spanP isJsSpace r
    some (['-'], t.2)
  | _ => none

/-- Matcher for `\s+` replaced by a single space. -/
def stepWsRun (l : List Char) : Option (List Char × List Char) :=
  match l with
  | c :: r =>
    if isJsSpace c then
      let s := spanP isJsSpace r
      some ([' '], s.2)
    else none
  | [] => none

/-- `normalizeHtml` (html-normalizer.ts lines 96-142): entity decoding, tag
stripping, punctuation folding, escape removal, URL de-bracketing,
underscore-placeholder removal, dash-spacing and whitespace collapsing,
then lowercasing. -/
def normalizeHtml (content : String) : String :=
  if content = "" then ""
  else
    let l := content.data
    let l := decodeHtmlEntities l
    let l := stripHtmlTags l
    let l := normalizeUnicode l
    let l := scanRun (stepUnescape normEscClass) l
    let l := scanRun stepUrlSelfLink l
    let l := scanRun stepUrlBracket l
    let l := scanRun stepUrlParen l
    let l := scanRun stepUnderscoreBracketL l
    let l := scanRun stepUnderscoreBracketR l
    let l := scanRun stepUnderscoreRun l
    let l := scanRun stepUnderscoreAlone l
    let l := scanRun stepDashSpacing l
    let l := scanRun stepWsRun l
    let l := trimChars l
    let l := l.map Char.toLower
    ⟨l⟩

/-- `compareHtmlContent`: equality of the two normal forms. -/
def compareHtmlContent (content1 content2 : String) : Bool :=
  normalizeHtml content1 == normalizeHtml content2

/-! ## html-normalizer.ts : markdownToSimpleHtml -/

/-- Escapable class of `markdownToSimpleHtml` step 0. -/
def mdEscClass : List Char :=
  ['_', '*', '[', ']', '\\', backtickChar, '#', '+', '(', ')', '-', '!']

/-- Split a character list at a separator character (used to apply the
per-line `^...$` patterns of the `m`-flag regexes; inside one line the
patterns never cross a line break because `.` does not match a newline). -/
def splitChar (sep : Char) : List Char → List (List Char)
  | [] => [[]]
  | c :: cs =>
    let r := splitChar sep cs
    if c = sep then [] :: r
    else
      match r with
      | [] => [[c]]
      | p :: ps => (c :: p) :: ps

/-- Re-join lines with a separator character. -/
def joinChar (sep : Char) : List (List Char) → List Char
  | [] => []
  | [p] => p
  | p :: ps => p ++ sep :: joinChar sep ps

/-- Apply a line transformation under each `^...$` multiline pattern. -/
def mapLines (f : List Char → List Char) (l : List Char) : List Char :=
  joinChar '\n' ((splitChar '\n' l).map f)

/-- Greedy `\s+(.+)$` tail of a line pattern: at least one whitespace
character, then a non-empty remainder (the greedy `\s+` gives one
character back when the remainder would otherwise be empty). -/
def wsThenContent (r : List Char) : Option (List Char) :=
  let s := spanP isJsSpace r
  if s.1 = [] then none
  else if s.2 ≠ [] then some s.2
  else if s.1.length ≥ 2 then some (s.1.drop (s.1.length - 1))
  else none

/-- One header rule `^#..#\s+(.+)$` rewritten to `<tagN>...</tagN>`. -/
def lineHeader (hashes : Nat) (tagOpen tagClose : List Char)
    (line : List Char) : Option (List Char) :=
  match stripPre (List.replicate hashes '#') line with
  | some r =>
    match wsThenContent r with
    | some content => some (tagOpen ++ content ++ tagClose)
    | none => none
  | none => none

/-- The six sequential header passes of step 1 (most hashes first; each
line is rewritten by at most one of them, so first-match equals the
source's sequence of whole-string passes).  A line with more leading
hashes than the rule under test is not matched (the greedy `\s+` cannot
start at a `#`). -/
def lineHeaders (line : List Char) : List Char :=
  match lineHeader 6 "<h4>".data "</h4>".data line with
  | some out => out
  | none =>
  match lineHeader 5 "<h3>".data "</h3>".data line with
  | some out => out
  | none =>
  match lineHeader 4 "<h2>".data "</h2>".data line with
  | some out => out
  | none =>
  match lineHeader 3 "<h1>".data "</h1>".data line with
  | some out => out
  | none =>
  match lineHeader 2 "<h1>".data "</h1>".data line with
  | some out => out
  | none =>
  match lineHeader 1 "<h1>".data "</h1>".data line with
  | some out => out
  | none => line

/-- Matcher for step 2 images `!\[([^\]]*)\]\(([^)]+)\)`. -/
def stepImage (l : List Char) : Option (List Char × List Char) :=
  match l with
  | '!' :: '[' :: r0 =>
    let alt := spanP (fun c => c ≠ ']') r0
    match alt.2 with
    | ']' :: '(' :: r1 =>
      let url := spanP (fun c => c ≠ ')') r1
      if url.1 = [] then none
      else
        match url.2 with
        | ')' :: rest =>
          some ("<img alt=\"".data ++ alt.1 ++ "\" src=\"".data ++ url.1 ++
                "\">".data, rest)
        | _ => none
    | _ => none
  | _ => none

/-- List-item rule `^\s*-\s+(.+)$` (and its `*` twin). -/
def lineBullet (bullet : Char) (line : List Char) : List Char :=
  let s := spanP isJsSpace line
  match s.2 with
  | c :: r =>
    if c = bullet then
      match wsThenContent r with
      | some content => "<li>".data ++ content ++ "</li>".data
      | none => line
    else line
  | [] => line

/-- Numbered-list rule `^\s*\d+\.\s+(.+)$`. -/
def lineNumbered (line : List Char) : List Char :=
  let s := spanP isJsSpace line
  let d := spanP Char.isDigit s.2
  if d.1 = [] then line
  else
    match d.2 with
    | '.' :: r =>
      match wsThenContent r with
      | some content => "<li>".data ++ content ++ "</li>".data
      | none => line
    | _ => line

/-- First index at which `pat` occurs as a sub-list, if any. -/
def firstIdxOfSub (l pat : List Char) : Option Nat :=
  match l with
  | [] => if pat = [] then some 0 else none
  | _ :: cs =>
    if (stripPre pat l).isSome then some 0
    else (firstIdxOfSub cs pat).map (· + 1)

/-- Last index at which `pat` occurs as a sub-list, if any. -/
def lastIdxOfSub (l pat : List Char) : Option Nat :=
  match l with
  | [] => if pat = [] then some 0 else none
  | _ :: cs =>
    match lastIdxOfSub cs pat with
    | some i => some (i + 1)
    | none => if (stripPre pat l).isSome then some 0 else none

/-- Step 3's wrap `(<li>.*<\/li>\s*)+` with the `gs` flags, replaced by
`<ul>$&</ul>`.  With the dotall greedy `.*` the single match runs from the
first `<li>` through the last `</li>` plus trailing whitespace, and no
further match is possible after it, so the whole pass is one wrap. -/
def wrapLis (l : List Char) : List Char :=
  match firstIdxOfSub l "<li>".data with
  | none => l
  | some i =>
    match lastIdxOfSub (l.drop i) "</li>".data with
    | none => l
    | some j =>
      let stop := i + j + 5
      let ws := spanP isJsSpace (l.drop stop)
      let stop2 := stop + ws.1.length
      l.take i ++ "<ul>".data ++ (l.drop i).take (stop2 - i) ++ "</ul>".data ++
        l.drop stop2

/-- Matcher for `(<\/li>)\n+(<li>)` replaced by `$1$2`. -/
def stepLiNewline (l : List Char) : Option (List Char × List Char) :=
  match stripPre "</li>".data l with
  | some r =>
    let s := spanP (fun c => c = '\n') r
    if s.1 = [] then none
    else
      match stripPre "<li>".data s.2 with
      | some rest => some ("</li><li>".data, rest)
      | none => none
  | none => none

/-- Matcher for step 4 links `\[([^\]]+)\]\(([^)]+)\)`. -/
def stepMdLink (l : List Char) : Option (List Char × List Char) :=
  match l with
  | '[' :: r0 =>
    let txt := spanP (fun c => c ≠ ']') r0
    if txt.1 = [] then none
    else
      match txt.2 with
      | ']' :: '(' :: r1 =>
        let url := spanP (fun c => c ≠ ')') r1
        if url.1 = [] then none
        else
          match url.2 with
          | ')' :: rest =>
            some ("<a href=\"".data ++ url.1 ++ "\">".data ++ txt.1 ++
                  "</a>".data, rest)
          | _ => none
      | _ => none
  | _ => none

/-- Lazy `(.+?)` up to a stop delimiter: the shortest non-empty run of
non-newline characters followed by `stop`; yields the content and the
remainder after the delimiter. -/
def lazyUntil (stop : List Char) : List Char → Option (List Char × List Char)
  | [] => none
  | c :: cs =>
    if c = '\n' then none
    else
      match stripPre stop cs with
      | some rest => some ([c], rest)
      | none =>
        match lazyUntil stop cs with
        | some (content, rest) => some (c :: content, rest)
        | none => none

/-- Matcher for an inline delimiter pair `delim(.+?)delim` replaced by
`openT$1closeT` (bold, italic and code spans of steps 5-7). -/
def stepInline (delim openT closeT : List Char) (l : List Char) :
    Option (List Char × List Char) :=
  match stripPre delim l with
  | some r =>
    match lazyUntil delim r with
    | some (content, rest) => some (openT ++ content ++ closeT, rest)
    | none => none
  | none => none

/-- Matcher for `\n\s*\n`: from a newline, through the maximal whitespace
run, ending at the last newline of that run (the greedy `\s*` backtracks
just enough to leave a final newline). -/
def matchDoubleNl (l : List Char) : Option (List Char) :=
  match l with
  | '\n' :: r =>
    let s := spanP isJsSpace r
    match lastIdxOfSub s.1 ['\n'] with
    | some p => some (s.1.drop (p + 1) ++ s.2)
    | none => none
  | _ => none

/-- Step 8's paragraph-break placeholder token. -/
def paragraphToken : List Char := "<<<PARAGRAPH_BREAK>>>".data

def stepDoubleNlToken (l : List Char) : Option (List Char × List Char) :=
  (matchDoubleNl l).map (fun rest => (paragraphToken, rest))

/-- JS `String.prototype.split(/\n\s*\n/)` (fuel-driven like `scanF`). -/
def splitBlocksF : Nat → List Char → List Char → List (List Char)
  | _, acc, [] => [acc.reverse]
  | 0, acc, l => [acc.reverse ++ l]
  | fuel + 1, acc, c :: cs =>
    match matchDoubleNl (c :: cs) with
    | some rest => acc.reverse :: splitBlocksF fuel [] rest
    | none => splitBlocksF fuel (c :: acc) cs

def splitBlocks (l : List Char) : List (List Char) :=
  splitBlocksF l.length [] l

/-- Step 9's block-element test `^<(h[1-6]|ul|ol|li|div|p|blockquote|img)` -/
def startsWithBlockTag (b : List Char) : Bool :=
  match b with
  | '<' :: r =>
    (match r with
     | 'h' :: d :: _ => decide ('1' ≤ d ∧ d ≤ '6')
     | _ => false) ||
    (stripPre "ul".data r).isSome || (stripPre "ol".data r).isSome ||
    (stripPre "li".data r).isSome || (stripPre "div".data r).isSome ||
    (stripPre "p".data r).isSome || (stripPre "blockquote".data r).isSome ||
    (stripPre "img".data r).isSome
  | _ => false

/-- Step 9's per-block wrap: trim, drop empty blocks, leave block elements
alone, wrap everything else in a paragraph. -/
def wrapBlock (b : List Char) : List Char :=
  let t := trimChars b
  if t = [] then []
  else if startsWithBlockTag t then t
  else "<p>".data ++ t ++ "</p>".data

/-- `markdownToSimpleHtml` (html-normalizer.ts lines 160-226). -/
def markdownToSimpleHtml (markdown : String) : String :=
  if markdown = "" then ""
  else
    let l := markdown.data
    let l := scanRun (stepUnescape mdEscClass) l
    let l := mapLines lineHeaders l
    let l := scanRun stepImage l
    let l := mapLines (lineBullet '-') l
    let l := mapLines (lineBullet '*') l
    let l := mapLines lineNumbered l
    let l := wrapLis l
    let l := scanRun stepLiNewline l
    let l := scanRun stepMdLink l
    let l := scanRun (stepInline "**".data "<strong>".data "</strong>".data) l
    let l := scanRun (stepInline "__".data "<strong>".data "</strong>".data) l
    let l := scanRun (stepInline "*".data "<em>".data "</em>".data) l
    let l := scanRun (stepInline "_".data "<em>".data "</em>".data) l
    let l := scanRun (stepInline [backtickChar] "<code>".data "</code>".data) l
    let l := scanRun stepDoubleNlToken l
    let l := replaceAllLit ['\n'] "<br>\n".data l
    let l := replaceAllLit paragraphToken "\n\n".data l
    let blocks := (splitBlocks l).map wrapBlock
    ⟨(blocks.filter (fun b => b ≠ [])).flatten⟩

/-! ## Data model (upload/types.ts and canvas/types.ts)

TypeScript `T | undefined` optionals are `Option`; declared `T | null`
fields are `NullOr`.  `CanvasPage.body`, `CanvasAssignment.description`
and `CanvasDiscussion.message` are declared `string` but the comparator
guards each with `|| ''`, and the nested discussion assignment's
`points_possible` reaches the comparator straight from JSON, where — as
the sibling `CanvasAssignment.points_possible : number | null` declares —
a null is possible; these four fields are therefore modelled as
`NullOr`. -/

/-- A JavaScript value that is either `null` or a proper value. -/
inductive NullOr (α : Type) where
  | null : NullOr α
  | val (a : α) : NullOr α
deriving DecidableEq

/-- `x || ''` on a possibly-null string. -/
def NullOr.orEmpty : NullOr String → String
  | .null => ""
  | .val s => s

/-- `x ?? null` merging `undefined` into `null`: an `Option` with `none`
read as null. -/
def NullOr.toOption {α : Type} : NullOr α → Option α
  | .null => none
  | .val a => some a

/-- JS truthiness of a `string | undefined` (the empty string is falsy). -/
def truthyOptStr : Option String → Bool
  | none => false
  | some s => s != ""

structure ParsedPage where
  title : String
  canvasPageId : Option String
  canvasModuleItemId : Option Nat
  body : String
deriving DecidableEq

structure ParsedAssignment where
  title : String
  canvasAssignmentId : Option Nat
  canvasModuleItemId : Option Nat
  description : String
  pointsPossible : Option Rat
  dueAt : Option String
  gradingType : Option String
  submissionTypes : Option (List String)
deriving DecidableEq

structure ParsedDiscussion where
  title : String
  canvasDiscussionId : Option Nat
  canvasModuleItemId : Option Nat
  message : String
  requireInitialPost : NullOr Bool
  threaded : Bool
  graded : Bool
  pointsPossible : Option Rat
  dueAt : Option String
deriving DecidableEq

structure ParsedHeader where
  title : String
  canvasModuleItemId : Option Nat
deriving DecidableEq

structure ParsedLink where
  title : String
  canvasModuleItemId : Option Nat
  url : String
deriving DecidableEq

structure ParsedFile where
  title : String
  canvasFileId : Option Nat
  canvasModuleItemId : Option Nat
  filename : Option String
deriving DecidableEq

/-- The `ParsedModuleItem` tagged union. -/
inductive ParsedModuleItem where
  | page (p : ParsedPage)
  | assignment (a : ParsedAssignment)
  | discussion (d : ParsedDiscussion)
  | header (h : ParsedHeader)
  | link (l : ParsedLink)
  | file (f : ParsedFile)
deriving DecidableEq

structure ParsedModule where
  title : String
  canvasModuleId : Option Nat
  items : List ParsedModuleItem
deriving DecidableEq

structure CanvasModule where
  id : Nat
  name : String
  position : Nat
  items_count : Nat
  items_url : String
deriving DecidableEq

structure CanvasPage where
  page_id : Nat
  url : String
  title : String
  body : NullOr String
  created_at : String
  updated_at : String
deriving DecidableEq

structure CanvasAssignment where
  id : Nat
  name : String
  description : NullOr String
  due_at : NullOr String
  points_possible : NullOr Rat
  grading_type : String
  submission_types : List String
  has_submitted_submissions : Bool
deriving DecidableEq

/-- The nested `assignment` sub-object of a graded Canvas discussion. -/
structure DiscussionAssignment where
  points_possible : NullOr Rat
  due_at : NullOr String
deriving DecidableEq

structure CanvasDiscussion where
  id : Nat
  title : String
  message : NullOr String
  discussion_type : String
  posted_at : String
  require_initial_post : Bool
  assignment : Option DiscussionAssignment
deriving DecidableEq

inductive Action where
  | create
  | update
  | skip
deriving DecidableEq

structure ChangeDetection where
  hasChanges : Bool
  changedFields : List String
  action : Action
deriving DecidableEq

structure UploadError where
  itemType : String
  itemTitle : String
  error : String
deriving DecidableEq

structure UploadStats where
  itemsCreated : Nat
  itemsUpdated : Nat
  itemsSkipped : Nat
  errors : List UploadError
deriving DecidableEq

/-! ## comparator.ts

`new Date(x).toISOString()` is a JS runtime round-trip through the `Date`
object; none of the claims settled here compares two distinct textual
spellings of one instant, so the round-trip is modelled as the identity
on the stored timestamp string. -/

def jsDateISO (s : String) : String := s

/-- `x ? new Date(x).toISOString() : null` on an optional string (the
empty string is falsy). -/
def dateOptISO (x : Option String) : Option String :=
  match x with
  | some s => if s = "" then none else some (jsDateISO s)
  | none => none

/-- The same on a nullable string. -/
def dateNullISO (x : NullOr String) : Option String :=
  match x with
  | .val s => if s = "" then none else some (jsDateISO s)
  | .null => none

/-- The classification tail shared verbatim by all four comparators:
any disagreement forces `update`, zero disagreements give `skip`. -/
def finishCompare (changedFields : List String) : ChangeDetection :=
  if changedFields.length > 0 then ⟨true, changedFields, .update⟩
  else ⟨false, [], .skip⟩

/-- `compareModule` (comparator.ts lines 34-67). -/
def compareModule (parsed : ParsedModule) (canvas : Option CanvasModule) :
    ChangeDetection :=
  match canvas with
  | none => ⟨true, [], .create⟩
  | some canvas =>
    let changedFields := if parsed.title ≠ canvas.name then ["title"] else []
    finishCompare changedFields

/-- `comparePage` (comparator.ts lines 72-143): strict title equality and
normalized body comparison (the parsed side converted through
`markdownToSimpleHtml` first). -/
def comparePage (parsed : ParsedPage) (canvas : Option CanvasPage) :
    ChangeDetection :=
  match canvas with
  | none => ⟨true, [], .create⟩
  | some canvas =>
    let parsedBodyHtml := markdownToSimpleHtml parsed.body
    let canvasBodyHtml := canvas.body.orEmpty
    let parsedNormalized := normalizeHtml parsedBodyHtml
    let canvasNormalized := normalizeHtml canvasBodyHtml
    let changedFields :=
      (if parsed.title ≠ canvas.title then ["title"] else []) ++
      (if parsedNormalized ≠ canvasNormalized then ["body"] else [])
    finishCompare changedFields

/-- `compareAssignment` (comparator.ts lines 148-232): strict title
equality, normalized description, null-coalesced points, instant-level
due dates, and grading type compared only when the parsed side is truthy. -/
def compareAssignment (parsed : ParsedAssignment)
    (canvas : Option CanvasAssignment) : ChangeDetection :=
  match canvas with
  | none => ⟨true, [], .create⟩
  | some canvas =>
    let parsedDescNorm := normalizeHtml (markdownToSimpleHtml parsed.description)
    let canvasDescNorm := normalizeHtml canvas.description.orEmpty
    let parsedPoints := parsed.pointsPossible
    let canvasPoints := canvas.points_possible.toOption
    let parsedDue := dateOptISO parsed.dueAt
    let canvasDue := dateNullISO canvas.due_at
    let changedFields :=
      (if parsed.title ≠ canvas.name then ["title"] else []) ++
      (if parsedDescNorm ≠ canvasDescNorm then ["description"] else []) ++
      (if parsedPoints ≠ canvasPoints then ["points_possible"] else []) ++
      (if parsedDue ≠ canvasDue then ["due_at"] else []) ++
      (if truthyOptStr parsed.gradingType = true ∧
          parsed.gradingType ≠ some canvas.grading_type
       then ["grading_type"] else [])
    finishCompare changedFields

/-- The strict `!==` between a `number | undefined` and a `number | null`
(discussion points): only two proper numbers can compare equal. -/
def strictNeNum (p : Option Rat) (c : NullOr Rat) : Bool :=
  match p, c with
  | some a, .val b => a ≠ b
  | _, _ => true

/-- The strict `!==` between a `boolean | null` and a `boolean`. -/
def strictNeBool (p : NullOr Bool) (c : Bool) : Bool :=
  match p with
  | .val b => b ≠ c
  | .null => true

/-- `compareDiscussion` (comparator.ts lines 237-323): title, normalized
message (via `compareHtmlContent`), strict `require_initial_post`,
derived threaded and graded flags, and — when graded on both sides —
strict points and instant-level due dates. -/
def compareDiscussion (parsed : ParsedDiscussion)
    (canvas : Option CanvasDiscussion) : ChangeDetection :=
  match canvas with
  | none => ⟨true, [], .create⟩
  | some canvas =>
    let parsedMsgHtml := markdownToSimpleHtml parsed.message
    let canvasMsgHtml := canvas.message.orEmpty
    let canvasThreaded := canvas.discussion_type = "threaded"
    let canvasGraded := canvas.assignment.isSome
    let gradedPart :=
      match parsed.graded, canvas.assignment with
      | true, some asg =>
        (if strictNeNum parsed.pointsPossible asg.points_possible
         then ["points"] else []) ++
        (if dateOptISO parsed.dueAt ≠ dateNullISO asg.due_at
         then ["due_at"] else [])
      | _, _ => []
    let changedFields :=
      (if parsed.title ≠ canvas.title then ["title"] else []) ++
      (if ¬ compareHtmlContent parsedMsgHtml canvasMsgHtml
       then ["message"] else []) ++
      (if strictNeBool parsed.requireInitialPost canvas.require_initial_post
       then ["require_initial_post"] else []) ++
      (if parsed.threaded ≠ canvasThreaded then ["threaded"] else []) ++
      (if parsed.graded ≠ canvasGraded then ["graded"] else []) ++
      gradedPart
    finishCompare changedFields

/-! ## link-resolver.ts

The registry is a JS `Map` from normalized key to URL: an insertion-order
association list whose `set` overwrites an existing key in place. -/

abbrev Registry : Type := List (String × String)

/-- JS `Map.prototype.set`. -/
def mapSet (m : Registry) (k v : String) : Registry :=
  if m.any (fun p => p.1 = k) then
    m.map (fun p => if p.1 = k then (k, v) else p)
  else m ++ [(k, v)]

/-- JS `Map.prototype.get`. -/
def mapGet (m : Registry) (k : String) : Option String :=
  (m.find? (fun p => p.1 = k)).map (fun p => p.2)

/-- `LinkResolver.makeKey`: lowercased kind, trimmed and lowercased title. -/
def makeKey (type title : String) : String :=
  jsToLower type ++ ":" ++ jsToLower (jsTrim title)

/-- `LinkResolver.register`. -/
def register (m : Registry) (type title canvasUrl : String) : Registry :=
  mapSet m (makeKey type title) canvasUrl

/-- The character class `[^\]]` of the marker pattern. -/
def notRBracket (c : Char) : Bool := c ≠ ']'

/-- Anchored matcher for the marker pattern `\[\[(\w+):([^\]]+)\]\]`:
two brackets, a non-empty greedy word-character run, a colon, a non-empty
greedy run of non-`]` characters, two closing brackets.  Yields the two
capture groups and the remainder after the match. -/
def tryMatchMarker (l : List Char) :
    Option (List Char × List Char × List Char) :=
  match l with
  | '[' :: '[' :: r0 =>
    let k := spanP isWordChar r0
    if k.1 = [] then none
    else
      match k.2 with
      | ':' :: r2 =>
        let t := spanP notRBracket r2
        if t.1 = [] then none
        else
          match t.2 with
          | ']' :: ']' :: r4 => some (k.1, t.1, r4)
          | _ => none
      | _ => none
  | _ => none

/-- The replacement emitted for a resolved marker:
`<a href="${url}">${title.trim()}</a>`. -/
def markerLinkHtml (url title : String) : String :=
  "<a href=\"" ++ url ++ "\">" ++ jsTrim title ++ "</a>"

/-- The scan of `LinkResolver.resolve` (fuel-driven like `scanF`; a
successful match consumes at least five characters and a failed attempt
one, so fuel equal to the input length always suffices): every marker
occurrence is replaced by a hyperlink when its key looks up to a truthy
address (`if (url)` — an address registered as the empty string is falsy
and counts as not found), setting the `hasLinks` flag, and by the bare
trimmed title otherwise; all other characters are copied. -/
def resolveGoF (registry : Registry) : Nat → List Char → List Char × Bool
  | _, [] => ([], false)
  | 0, l => (l, false)
  | fuel + 1, c :: cs =>
    match tryMatchMarker (c :: cs) with
    | some (k, t, rest) =>
      let r := resolveGoF registry fuel rest
      let url := mapGet registry (makeKey ⟨k⟩ ⟨t⟩)
      if truthyOptStr url then
        ((markerLinkHtml (url.getD "") ⟨t⟩).data ++ r.1, true)
      else ((jsTrim ⟨t⟩).data ++ r.1, r.2)
    | none =>
      let r := resolveGoF registry fuel cs
      (c :: r.1, r.2)

def resolveGo (registry : Registry) (l : List Char) : List Char × Bool :=
  resolveGoF registry l.length l

/-- `LinkResolver.resolve` (link-resolver.ts lines 23-50); a total
function — resolution never throws. -/
def resolve (registry : Registry) (content : String) : String × Bool :=
  if content = "" then (content, false)
  else
    let r := resolveGo registry content.data
    (⟨r.1⟩, r.2)

/-- `LinkResolver.hasInternalLinks`: the marker regex tests positively
somewhere in the content. -/
def hasInternalLinksGo : List Char → Bool
  | [] => false
  | c :: cs => (tryMatchMarker (c :: cs)).isSome || hasInternalLinksGo cs

def hasInternalLinks (content : String) : Bool :=
  if content = "" then false
  else hasInternalLinksGo content.data

/-- The `(kind, title)` capture pairs of the marker occurrences found by
the resolution scan, in scan order (specification companion of
`resolveGo`, used to state which markers an input contains). -/
def markersOfF : Nat → List Char → List (String × String)
  | _, [] => []
  | 0, _ => []
  | fuel + 1, c :: cs =>
    match tryMatchMarker (c :: cs) with
    | some (k, t, rest) => (⟨k⟩, ⟨t⟩) :: markersOfF fuel rest
    | none => markersOfF fuel cs

def markersOf (l : List Char) : List (String × String) :=
  markersOfF l.length l

/-! ## parser.ts : item-body termination -/

/-- `line.startsWith(p)` on JS strings. -/
def strStartsWith (line p : String) : Bool :=
  (stripPre p.data line.data).isSome

/-- The six recognized kind markers, in the alternation order of
`isModuleItemHeader`'s pattern. -/
def itemKinds : List String :=
  ["page", "assignment", "discussion", "header", "link", "file"]

/-- The alternation `(page|assignment|discussion|header|link|file)`:
no alternative is a prefix of another, so ordered first-match is exact. -/
def kindAlt (l : List Char) : Option (List Char) :=
  match stripPre "page".data l with
  | some r => some r
  | none =>
  match stripPre "assignment".data l with
  | some r => some r
  | none =>
  match stripPre "discussion".data l with
  | some r => some r
  | none =>
  match stripPre "header".data l with
  | some r => some r
  | none =>
  match stripPre "link".data l with
  | some r => some r
  | none => stripPre "file".data l

/-- The `\]\s+` tail of the section-marker pattern, after the kind. -/
def afterKind (r3 : List Char) : Bool :=
  match r3 with
  | ']' :: r4 => (spanP isJsSpace r4).1 ≠ []
  | _ => false

/-- `MarkdownParser.isModuleItemHeader` (parser.ts lines 388-390): the
test `^##\s+\[(page|assignment|discussion|header|link|file)\]\s+`. -/
def isModuleItemHeader (line : String) : Bool :=
  match line.data with
  | '#' :: '#' :: r0 =>
    let w := spanP isJsSpace r0
    if w.1 = [] then false
    else
      match w.2 with
      | '[' :: r2 =>
        match kindAlt r2 with
        | some r3 => afterKind r3
        | none => false
      | _ => false
  | _ => false

/-- The stop condition of the body-collecting loops (parser.ts lines 249
and 367): a top-level module line or a recognized section-marker line. -/
def stopsItemBody (line : String) : Bool :=
  strStartsWith line "# " || isModuleItemHeader line

/-- The body-collecting loop shared by `parsePage` (lines 361-374) and
`parseMetadataAndContent`'s content branch: consume lines until the stop
condition, returning the collected lines and the remainder. -/
def collectBody : List String → List String × List String
  | [] => ([], [])
  | l :: ls =>
    if stopsItemBody l then ([], l :: ls)
    else
      let r := collectBody ls
      (l :: r.1, r.2)

/-- `unescapeMarkdown` (parser.ts lines 229-234). -/
def unescapeMarkdown (content : String) : String :=
  ⟨replaceAllLit "\\]".data "]".data
    (replaceAllLit "\\[".data "[".data content.data)⟩

/-- The page body assembled by `parsePage`: collected lines joined with
newlines, trimmed, unescaped. -/
def parsePageBody (lines : List String) : String :=
  unescapeMarkdown (jsTrim (String.join ((collectBody lines).1.map
    (fun l => l ++ "\n"))))

/-! ## uploader.ts : the three-phase orchestrator

The remote write client (`CanvasApiClientWrite`) is the external
collaborator: each mutator is a function to `Except`, where `.error`
models a thrown failure.  The orchestrator's JavaScript state mutation
(statistics counters, error list, link-registry registrations, the
link-resolution queue) is embedded as an effect record appended in
program order; nothing in phase 2 (materialize) ever reads that state, and
phase 3 (resolve links) reads only the registry accumulated by phase 2,
so the append-only effect presentation is observationally identical to
the imperative original.  The ghost `calls` trace records every remote
mutation the uploader issues, in order. -/

structure CreatePageParams where
  title : String
  body : String
  published : Option Bool
deriving DecidableEq

structure UpdatePageParams where
  title : Option String
  body : Option String
  published : Option Bool
deriving DecidableEq

structure CreateAssignmentParams where
  name : String
  description : String
  points_possible : Option Rat
  due_at : Option String
  grading_type : Option String
  submission_types : Option (List String)
  published : Option Bool
deriving DecidableEq

structure UpdateAssignmentParams where
  name : Option String
  description : Option String
  points_possible : Option Rat
  due_at : Option String
  grading_type : Option String
  published : Option Bool
deriving DecidableEq

/-- The nested `assignment` parameter object of a graded discussion
(`points_possible` and the parsed due date). -/
structure DiscussionAssignParams where
  points_possible : Rat
  due_at : Option String
deriving DecidableEq

/-- Discussion creation parameters.  `require_initial_post` is declared
`boolean?` but the uploader passes the parsed `boolean | null` value
straight through, so the field is `NullOr Bool` here. -/
structure CreateDiscussionParams where
  title : String
  message : String
  discussion_type : String
  require_initial_post : NullOr Bool
  published : Option Bool
  assignment : Option DiscussionAssignParams
deriving DecidableEq

structure UpdateDiscussionParams where
  title : Option String
  message : Option String
  discussion_type : Option String
  require_initial_post : NullOr Bool
  assignment : Option DiscussionAssignParams
deriving DecidableEq

structure CreateModuleItemParams where
  title : String
  type : String
  content_id : Option Nat
  page_url : Option String
  external_url : Option String
deriving DecidableEq

/-- One remote mutation issued by the uploader (the ghost trace entry). -/
inductive ApiCall where
  | createModule (name : String)
  | updateModule (id : Nat) (name : String)
  | createPage (p : CreatePageParams)
  | updatePage (pageId : String) (p : UpdatePageParams)
  | createAssignment (p : CreateAssignmentParams)
  | updateAssignment (id : Nat) (p : UpdateAssignmentParams)
  | createDiscussion (p : CreateDiscussionParams)
  | updateDiscussion (id : Nat) (p : UpdateDiscussionParams)
  | createModuleItem (moduleId : Nat) (p : CreateModuleItemParams)
deriving DecidableEq

/-- The write API client: `createModule` returns the created module's id,
`createPage` the created page's url slug, `createAssignment` and
`createDiscussion` the created object's id; an `.error` is a thrown
failure carrying `error.message`. -/
structure Api where
  baseUrl : String
  courseId : String
  createModule : String → Except String Nat
  updateModule : Nat → String → Except String Unit
  createPage : CreatePageParams → Except String String
  updatePage : String → UpdatePageParams → Except String Unit
  createAssignment : CreateAssignmentParams → Except String Nat
  updateAssignment : Nat → UpdateAssignmentParams → Except String Unit
  createDiscussion : CreateDiscussionParams → Except String Nat
  updateDiscussion : Nat → UpdateDiscussionParams → Except String Unit
  createModuleItem : Nat → CreateModuleItemParams → Except String Unit

/-- A registration `register(kind, title, url)` recorded by phase 2. -/
structure RegEntry where
  rtype : String
  rtitle : String
  rurl : String
deriving DecidableEq

/-- The `id` member of a queued link-resolution item
(`number | string` in the source). -/
inductive ItemIdVal where
  | pageUrl (u : String)
  | numId (n : Nat)
deriving DecidableEq

/-- An entry of `itemsNeedingLinks`. -/
structure QueuedItem where
  qtype : String
  qid : ItemIdVal
  qcontent : String
deriving DecidableEq

/-- The ordered effects of a section of the upload run. -/
structure Eff where
  created : Nat
  updated : Nat
  skipped : Nat
  errors : List UploadError
  regs : List RegEntry
  queued : List QueuedItem
  calls : List ApiCall
deriving DecidableEq

def Eff.empty : Eff := ⟨0, 0, 0, [], [], [], []⟩

def Eff.append (a b : Eff) : Eff :=
  ⟨a.created + b.created, a.updated + b.updated, a.skipped + b.skipped,
   a.errors ++ b.errors, a.regs ++ b.regs, a.queued ++ b.queued,
   a.calls ++ b.calls⟩

/-- The create/update/skip results recorded by an effect (each processed
item and module increments exactly one of the three counters). -/
def Eff.results (e : Eff) : Nat := e.created + e.updated + e.skipped

/-- The remote snapshot built by `fetchCanvasData`: a map keyed by
`module_<id>` / `page_<url>` / `assignment_<id>` / `discussion_<id>`,
rendered as one association list per key prefix.  Snapshot fetching
itself is read-only and outside the mutation claims, so the snapshot is
an input of the embedded run. -/
structure CanvasData where
  modules : List (Nat × CanvasModule)
  pages : List (String × CanvasPage)
  assignments : List (Nat × CanvasAssignment)
  discussions : List (Nat × CanvasDiscussion)

def CanvasData.empty : CanvasData := ⟨[], [], [], []⟩

def CanvasData.getModule (d : CanvasData) (id : Nat) : Option CanvasModule :=
  (d.modules.find? (fun p => p.1 == id)).map (fun p => p.2)

def CanvasData.getPage (d : CanvasData) (u : String) : Option CanvasPage :=
  (d.pages.find? (fun p => p.1 == u)).map (fun p => p.2)

def CanvasData.getAssignment (d : CanvasData) (id : Nat) :
    Option CanvasAssignment :=
  (d.assignments.find? (fun p => p.1 == id)).map (fun p => p.2)

def CanvasData.getDiscussion (d : CanvasData) (id : Nat) :
    Option CanvasDiscussion :=
  (d.discussions.find? (fun p => p.1 == id)).map (fun p => p.2)

/-- `x ? canvasData.get(...) : undefined` for a numeric id (0 is falsy). -/
def lookupByNum (get : Nat → Option α) (id : Option Nat) : Option α :=
  match id with
  | some n => if n = 0 then none else get n
  | none => none

/-- The same for a string id (the empty slug is falsy). -/
def lookupByStr (get : String → Option α) (id : Option String) : Option α :=
  match id with
  | some s => if s = "" then none else get s
  | none => none

/-- JS `!x` on a `number | undefined` id (both `undefined` and 0 are
falsy). -/
def jsFalsyOptNat : Option Nat → Bool
  | none => true
  | some n => n == 0

/-- String interpolation of a queued item id. -/
def ItemIdVal.interp : ItemIdVal → String
  | .pageUrl u => u
  | .numId n => toString n

/-- `CourseUploader.uploadPage` (uploader.ts lines 399-461), as the effect
it appends plus the exception escaping it, if any.  In the skip branch the
page is still registered for link resolution when it carries a remote
slug. -/
def uploadPageEff (api : Api) (page : ParsedPage) (moduleId : Nat)
    (data : CanvasData) : Eff × Option String :=
  let canvasPage := lookupByStr data.getPage page.canvasPageId
  let comparison := comparePage page canvasPage
  match comparison.action with
  | .create =>
    let params : CreatePageParams :=
      { title := page.title, body := markdownToSimpleHtml page.body,
        published := some true }
    match api.createPage params with
    | .error e => (⟨0, 0, 0, [], [], [], [.createPage params]⟩, some e)
    | .ok createdUrl =>
      let url := api.baseUrl ++ "/courses/" ++ api.courseId ++ "/pages/" ++
        createdUrl
      let regs := [⟨"page", page.title, url⟩]
      let queued :=
        if hasInternalLinks page.body then
          [⟨"page", .pageUrl createdUrl, page.body⟩]
        else []
      if jsFalsyOptNat page.canvasModuleItemId then
        let mi : CreateModuleItemParams :=
          { title := page.title, type := "Page", content_id := none,
            page_url := some createdUrl, external_url := none }
        match api.createModuleItem moduleId mi with
        | .error e =>
          (⟨1, 0, 0, [], regs, queued,
            [.createPage params, .createModuleItem moduleId mi]⟩, some e)
        | .ok _ =>
          (⟨1, 0, 0, [], regs, queued,
            [.createPage params, .createModuleItem moduleId mi]⟩, none)
      else (⟨1, 0, 0, [], regs, queued, [.createPage params]⟩, none)
  | .update =>
    let pid := page.canvasPageId.getD ""
    let params : UpdatePageParams :=
      { title := some page.title, body := some (markdownToSimpleHtml page.body),
        published := none }
    match api.updatePage pid params with
    | .error e => (⟨0, 0, 0, [], [], [], [.updatePage pid params]⟩, some e)
    | .ok _ =>
      let url := api.baseUrl ++ "/courses/" ++ api.courseId ++ "/pages/" ++ pid
      let regs := [⟨"page", page.title, url⟩]
      let queued :=
        if hasInternalLinks page.body then
          [⟨"page", .pageUrl pid, page.body⟩]
        else []
      (⟨0, 1, 0, [], regs, queued, [.updatePage pid params]⟩, none)
  | .skip =>
    let regs :=
      match page.canvasPageId with
      | some pid =>
        if pid = "" then []
        else
          [⟨"page", page.title,
            api.baseUrl ++ "/courses/" ++ api.courseId ++ "/pages/" ++ pid⟩]
      | none => []
    (⟨0, 0, 1, [], regs, [], []⟩, none)

/-- `CourseUploader.uploadAssignment` (uploader.ts lines 466-536). -/
def uploadAssignmentEff (api : Api) (assignment : ParsedAssignment)
    (moduleId : Nat) (data : CanvasData) : Eff × Option String :=
  let canvasAssignment :=
    lookupByNum data.getAssignment assignment.canvasAssignmentId
  let comparison := compareAssignment assignment canvasAssignment
  match comparison.action with
  | .create =>
    let params : CreateAssignmentParams :=
      { name := assignment.title,
        description := markdownToSimpleHtml assignment.description,
        points_possible := assignment.pointsPossible,
        due_at := assignment.dueAt,
        grading_type := assignment.gradingType,
        submission_types := assignment.submissionTypes,
        published := some true }
    match api.createAssignment params with
    | .error e => (⟨0, 0, 0, [], [], [], [.createAssignment params]⟩, some e)
    | .ok createdId =>
      let url := api.baseUrl ++ "/courses/" ++ api.courseId ++
        "/assignments/" ++ toString createdId
      let regs := [⟨"assignment", assignment.title, url⟩]
      let queued :=
        if hasInternalLinks assignment.description then
          [⟨"assignment", .numId createdId, assignment.description⟩]
        else []
      if jsFalsyOptNat assignment.canvasModuleItemId then
        let mi : CreateModuleItemParams :=
          { title := assignment.title, type := "Assignment",
            content_id := some createdId, page_url := none,
            external_url := none }
        match api.createModuleItem moduleId mi with
        | .error e =>
          (⟨1, 0, 0, [], regs, queued,
            [.createAssignment params, .createModuleItem moduleId mi]⟩, some e)
        | .ok _ =>
          (⟨1, 0, 0, [], regs, queued,
            [.createAssignment params, .createModuleItem moduleId mi]⟩, none)
      else (⟨1, 0, 0, [], regs, queued, [.createAssignment params]⟩, none)
  | .update =>
    let aid := assignment.canvasAssignmentId.getD 0
    let params : UpdateAssignmentParams :=
      { name := some assignment.title,
        description := some (markdownToSimpleHtml assignment.description),
        points_possible := assignment.pointsPossible,
        due_at := assignment.dueAt,
        grading_type := assignment.gradingType,
        published := none }
    match api.updateAssignment aid params with
    | .error e =>
      (⟨0, 0, 0, [], [], [], [.updateAssignment aid params]⟩, some e)
    | .ok _ =>
      let url := api.baseUrl ++ "/courses/" ++ api.courseId ++
        "/assignments/" ++ toString aid
      let regs := [⟨"assignment", assignment.title, url⟩]
      let queued :=
        if hasInternalLinks assignment.description then
          [⟨"assignment", .numId aid, assignment.description⟩]
        else []
      (⟨0, 1, 0, [], regs, queued, [.updateAssignment aid params]⟩, none)
  | .skip =>
    let regs :=
      match assignment.canvasAssignmentId with
      | some aid =>
        if aid = 0 then []
        else
          [⟨"assignment", assignment.title,
            api.baseUrl ++ "/courses/" ++ api.courseId ++ "/assignments/" ++
              toString aid⟩]
      | none => []
    (⟨0, 0, 1, [], regs, [], []⟩, none)

/-- `CourseUploader.uploadDiscussion` (uploader.ts lines 541-625). -/
def uploadDiscussionEff (api : Api) (discussion : ParsedDiscussion)
    (moduleId : Nat) (data : CanvasData) : Eff × Option String :=
  let canvasDiscussion :=
    lookupByNum data.getDiscussion discussion.canvasDiscussionId
  let comparison := compareDiscussion discussion canvasDiscussion
  let asgParams : Option DiscussionAssignParams :=
    match discussion.graded, discussion.pointsPossible with
    | true, some p => some ⟨p, discussion.dueAt⟩
    | _, _ => none
  match comparison.action with
  | .create =>
    let params : CreateDiscussionParams :=
      { title := discussion.title,
        message := markdownToSimpleHtml discussion.message,
        discussion_type :=
          if discussion.threaded then "threaded" else "side_comment",
        require_initial_post := discussion.requireInitialPost,
        published := some true,
        assignment := asgParams }
    match api.createDiscussion params with
    | .error e => (⟨0, 0, 0, [], [], [], [.createDiscussion params]⟩, some e)
    | .ok createdId =>
      let url := api.baseUrl ++ "/courses/" ++ api.courseId ++
        "/discussion_topics/" ++ toString createdId
      let regs := [⟨"discussion", discussion.title, url⟩]
      let queued :=
        if hasInternalLinks discussion.message then
          [⟨"discussion", .numId createdId, discussion.message⟩]
        else []
      if jsFalsyOptNat discussion.canvasModuleItemId then
        let mi : CreateModuleItemParams :=
          { title := discussion.title, type := "Discussion",
            content_id := some createdId, page_url := none,
            external_url := none }
        match api.createModuleItem moduleId mi with
        | .error e =>
          (⟨1, 0, 0, [], regs, queued,
            [.createDiscussion params, .createModuleItem moduleId mi]⟩, some e)
        | .ok _ =>
          (⟨1, 0, 0, [], regs, queued,
            [.createDiscussion params, .createModuleItem moduleId mi]⟩, none)
      else (⟨1, 0, 0, [], regs, queued, [.createDiscussion params]⟩, none)
  | .update =>
    let did := discussion.canvasDiscussionId.getD 0
    let params : UpdateDiscussionParams :=
      { title := some discussion.title,
        message := some (markdownToSimpleHtml discussion.message),
        discussion_type :=
          some (if discussion.threaded then "threaded" else "side_comment"),
        require_initial_post := discussion.requireInitialPost,
        assignment := asgParams }
    match api.updateDiscussion did params with
    | .error e =>
      (⟨0, 0, 0, [], [], [], [.updateDiscussion did params]⟩, some e)
    | .ok _ =>
      let url := api.baseUrl ++ "/courses/" ++ api.courseId ++
        "/discussion_topics/" ++ toString did
      let regs := [⟨"discussion", discussion.title, url⟩]
      let queued :=
        if hasInternalLinks discussion.message then
          [⟨"discussion", .numId did, discussion.message⟩]
        else []
      (⟨0, 1, 0, [], regs, queued, [.updateDiscussion did params]⟩, none)
  | .skip =>
    let regs :=
      match discussion.canvasDiscussionId with
      | some did =>
        if did = 0 then []
        else
          [⟨"discussion", discussion.title,
            api.baseUrl ++ "/courses/" ++ api.courseId ++
              "/discussion_topics/" ++ toString did⟩]
      | none => []
    (⟨0, 0, 1, [], regs, [], []⟩, none)

/-- `CourseUploader.uploadHeader` (uploader.ts lines 630-640). -/
def uploadHeaderEff (api : Api) (header : ParsedHeader) (moduleId : Nat) :
    Eff × Option String :=
  if jsFalsyOptNat header.canvasModuleItemId then
    let mi : CreateModuleItemParams :=
      { title := header.title, type := "SubHeader", content_id := none,
        page_url := none, external_url := none }
    match api.createModuleItem moduleId mi with
    | .error e => (⟨0, 0, 0, [], [], [], [.createModuleItem moduleId mi]⟩, some e)
    | .ok _ => (⟨1, 0, 0, [], [], [], [.createModuleItem moduleId mi]⟩, none)
  else (⟨0, 0, 1, [], [], [], []⟩, none)

/-- `CourseUploader.uploadLink` (uploader.ts lines 645-656). -/
def uploadLinkEff (api : Api) (link : ParsedLink) (moduleId : Nat) :
    Eff × Option String :=
  if jsFalsyOptNat link.canvasModuleItemId then
    let mi : CreateModuleItemParams :=
      { title := link.title, type := "ExternalUrl", content_id := none,
        page_url := none, external_url := some link.url }
    match api.createModuleItem moduleId mi with
    | .error e => (⟨0, 0, 0, [], [], [], [.createModuleItem moduleId mi]⟩, some e)
    | .ok _ => (⟨1, 0, 0, [], [], [], [.createModuleItem moduleId mi]⟩, none)
  else (⟨0, 0, 1, [], [], [], []⟩, none)

def itemType : ParsedModuleItem → String
  | .page _ => "page"
  | .assignment _ => "assignment"
  | .discussion _ => "discussion"
  | .header _ => "header"
  | .link _ => "link"
  | .file _ => "file"

def itemTitle : ParsedModuleItem → String
  | .page p => p.title
  | .assignment a => a.title
  | .discussion d => d.title
  | .header h => h.title
  | .link l => l.title
  | .file f => f.title

/-- The body of `CourseUploader.uploadItem`'s `try` block (uploader.ts
lines 365-386): dispatch per kind; files are always skipped. -/
def uploadItemRun (api : Api) (item : ParsedModuleItem) (moduleId : Nat)
    (data : CanvasData) : Eff × Option String :=
  match item with
  | .page p => uploadPageEff api p moduleId data
  | .assignment a => uploadAssignmentEff api a moduleId data
  | .discussion d => uploadDiscussionEff api d moduleId data
  | .header h => uploadHeaderEff api h moduleId
  | .link l => uploadLinkEff api l moduleId
  | .file _ => (⟨0, 0, 1, [], [], [], []⟩, none)

/-- `CourseUploader.uploadItem` (uploader.ts lines 358-394): the `catch`
records one structured error carrying the item's kind and title; the
call never propagates an exception. -/
def uploadItemEff (api : Api) (item : ParsedModuleItem) (moduleId : Nat)
    (data : CanvasData) : Eff :=
  match uploadItemRun api item moduleId data with
  | (eff, some e) =>
    { eff with errors := eff.errors ++ [⟨itemType item, itemTitle item, e⟩] }
  | (eff, none) => eff

/-- The module-level half of `CourseUploader.uploadModule` (uploader.ts
lines 313-353): classify the module, create / rename / skip it; a thrown
module-level failure is caught, recorded under kind `module`, and aborts
the module's item loop (`none`). -/
def uploadModuleStep (api : Api) (m : ParsedModule) (data : CanvasData) :
    Eff × Option Nat :=
  let canvasModule := lookupByNum data.getModule m.canvasModuleId
  let comparison := compareModule m canvasModule
  match comparison.action with
  | .create =>
    match api.createModule m.title with
    | .error e =>
      (⟨0, 0, 0, [⟨"module", m.title, e⟩], [], [], [.createModule m.title]⟩,
       none)
    | .ok createdId =>
      (⟨1, 0, 0, [], [], [], [.createModule m.title]⟩, some createdId)
  | .update =>
    let mid := m.canvasModuleId.getD 0
    match api.updateModule mid m.title with
    | .error e =>
      (⟨0, 0, 0, [⟨"module", m.title, e⟩], [], [],
        [.updateModule mid m.title]⟩, none)
    | .ok _ => (⟨0, 1, 0, [], [], [], [.updateModule mid m.title]⟩, some mid)
  | .skip => (⟨0, 0, 1, [], [], [], []⟩, some (m.canvasModuleId.getD 0))

/-- `CourseUploader.uploadModule`: the module step, then — unless the
module-level call threw — every item in document order. -/
def uploadModuleEff (api : Api) (m : ParsedModule) (data : CanvasData) :
    Eff :=
  match uploadModuleStep api m data with
  | (eff, none) => eff
  | (eff, some mid) =>
    m.items.foldl (fun acc it => acc.append (uploadItemEff api it mid data)) eff

/-- One iteration of `CourseUploader.resolveLinks` (uploader.ts lines
661-687): re-resolve the queued raw content against the registry; only
when at least one marker actually resolved is a targeted update issued;
a failure is caught and recorded. -/
def resolveItemEff (api : Api) (registry : Registry) (item : QueuedItem) :
    Eff :=
  let r := resolve registry item.qcontent
  if r.2 then
    let errTitle := "Link resolution for " ++ item.qtype ++ " " ++
      item.qid.interp
    if item.qtype = "page" then
      let pid := match item.qid with | .pageUrl u => u | .numId n => toString n
      let params : UpdatePageParams :=
        { title := none, body := some r.1, published := none }
      match api.updatePage pid params with
      | .error e =>
        ⟨0, 0, 0, [⟨item.qtype, errTitle, e⟩], [], [], [.updatePage pid params]⟩
      | .ok _ => ⟨0, 0, 0, [], [], [], [.updatePage pid params]⟩
    else if item.qtype = "assignment" then
      let aid := match item.qid with | .numId n => n | .pageUrl _ => 0
      let params : UpdateAssignmentParams :=
        { name := none, description := some r.1, points_possible := none,
          due_at := none, grading_type := none, published := none }
      match api.updateAssignment aid params with
      | .error e =>
        ⟨0, 0, 0, [⟨item.qtype, errTitle, e⟩], [], [],
         [.updateAssignment aid params]⟩
      | .ok _ => ⟨0, 0, 0, [], [], [], [.updateAssignment aid params]⟩
    else if item.qtype = "discussion" then
      let did := match item.qid with | .numId n => n | .pageUrl _ => 0
      let params : UpdateDiscussionParams :=
        { title := none, message := some r.1, discussion_type := none,
          require_initial_post := .null, assignment := none }
      match api.updateDiscussion did params with
      | .error e =>
        ⟨0, 0, 0, [⟨item.qtype, errTitle, e⟩], [], [],
         [.updateDiscussion did params]⟩
      | .ok _ => ⟨0, 0, 0, [], [], [], [.updateDiscussion did params]⟩
    else Eff.empty
  else Eff.empty

/-- Phase 3 of `upload`: resolve links for every queued item against the
registry populated during materialization. -/
def resolveLinksEff (api : Api) (registry : Registry)
    (items : List QueuedItem) : Eff :=
  items.foldl (fun acc it => acc.append (resolveItemEff api registry it))
    Eff.empty

/-- Replay the registrations recorded by phase 2 into a fresh registry
(`upload` clears the resolver first). -/
def applyRegs (base : Registry) (regs : List RegEntry) : Registry :=
  regs.foldl (fun m r => register m r.rtype r.rtitle r.rurl) base

/-- `CourseUploader.upload` (uploader.ts lines 227-261) for a non-dry
run, with the ghost trace retained: clear the registry, materialize every
module in document order, then resolve links for the queued items.  The
module-position phase is a no-op.  The run is a total function — every
per-item failure is caught inside it. -/
def uploadRun (api : Api) (modules : List ParsedModule) (data : CanvasData) :
    Eff :=
  let phase1 := modules.foldl
    (fun acc m => acc.append (uploadModuleEff api m data)) Eff.empty
  let registry := applyRegs [] phase1.regs
  let phase2 := resolveLinksEff api registry phase1.queued
  phase1.append phase2

/-- The `UploadStats` result of `upload`. -/
def upload (api : Api) (modules : List ParsedModule) (data : CanvasData)
    (dryRun : Bool) : UploadStats :=
  if dryRun then ⟨0, 0, 0, []⟩
  else
    let e := uploadRun api modules data
    ⟨e.created, e.updated, e.skipped, e.errors⟩

/-! ## The concrete claim-C2 scenario -/

/-- A remote client for the scenario run: module creation yields id 10,
page creation the slug `overview`, assignment creation id 55; every call
succeeds. -/
def c2Api : Api :=
  ⟨"https://c.x", "77", fun _ => .ok 10, fun _ _ => .ok (),
   fun _ => .ok "overview", fun _ _ => .ok (), fun _ => .ok 55,
   fun _ _ => .ok (), fun _ => .ok 90, fun _ _ => .ok (),
   fun _ _ => .ok ()⟩

/-- One module without identity markers: a page whose body references
`[[Assignment:HW1]]` and an assignment titled `HW1`. -/
def c2Module : ParsedModule :=
  ⟨"Week 1", none,
   [.page ⟨"Overview", none, none, "See [[Assignment:HW1]]"⟩,
    .assignment ⟨"HW1", none, none, "", none, none, none, none⟩]⟩

/-- Recognizer for page-update calls in the ghost trace. -/
def isUpdatePageCall : ApiCall → Bool
  | .updatePage _ _ => true
  | _ => false

/-! ## Helper lemmas about the character-scan primitives -/

theorem spanP_append (p : Char → Bool) (l : List Char) :
    (spanP p l).1 ++ (spanP p l).2 = l := by
  induction l with
  | nil => rfl
  | cons c cs ih =>
    by_cases h : p c = true
    · simp [spanP, h, ih]
    · simp [spanP, h]

theorem spanP_length (p : Char → Bool) (l : List Char) :
    (spanP p l).1.length + (spanP p l).2.length = l.length := by
  have h := congrArg List.length (spanP_append p l)
  simpa using h

theorem spanP_all (p : Char → Bool) (l : List Char) :
    ∀ c ∈ (spanP p l).1, p c = true := by
  induction l with
  | nil => intro c hc; simp [spanP] at hc
  | cons c cs ih =>
    intro d hd
    by_cases h : p c = true
    · simp [spanP, h] at hd
      rcases hd with hd | hd
      · rwa [hd]
      · exact ih d hd
    · simp [spanP, h] at hd

/-- `spanP` on a block of class characters followed by a non-class
character splits exactly at the block boundary. -/
theorem spanP_exact (p : Char → Bool) (a : List Char) (c : Char) (r : List Char)
    (ha : ∀ x ∈ a, p x = true) (hc : p c = false) :
    spanP p (a ++ c :: r) = (a, c :: r) := by
  induction a with
  | nil => simp [spanP, hc]
  | cons x xs ih =>
    have hx : p x = true := ha x (by simp)
    have := ih (fun y hy => ha y (by simp [hy]))
    simp [spanP, hx, this]

theorem stripPre_eq {pat l r : List Char} (h : stripPre pat l = some r) :
    l = pat ++ r := by
  induction pat generalizing l with
  | nil => simp [stripPre] at h; simp [h]
  | cons p ps ih =>
    cases l with
    | nil => simp [stripPre] at h
    | cons c cs =>
      by_cases hc : c = p
      · subst hc
        simp [stripPre] at h
        simp [ih h]
      · simp [stripPre, hc] at h

theorem stripPre_self (pat l : List Char) : stripPre pat (pat ++ l) = some l := by
  induction pat with
  | nil => rfl
  | cons p ps ih => simp [stripPre, ih]

theorem tryMatchMarker_shape {l k t rest : List Char}
    (h : tryMatchMarker l = some (k, t, rest)) :
    k ≠ [] ∧ t ≠ [] ∧ l = '[' :: '[' :: k ++ ':' :: t ++ ']' :: ']' :: rest := by
  unfold tryMatchMarker at h
  split at h
  case _ r0 =>
    by_cases hk : (spanP isWordChar r0).1 = []
    · simp [hk] at h
    · rw [if_neg hk] at h
      split at h
      case _ r2 hk2 =>
        by_cases ht : (spanP notRBracket r2).1 = []
        · simp [ht] at h
        · rw [if_neg ht] at h
          split at h
          case _ r4 ht2 =>
            have e0 := spanP_append isWordChar r0
            rw [hk2] at e0
            have e2 := spanP_append notRBracket r2
            rw [ht2] at e2
            simp only [Option.some.injEq, Prod.mk.injEq] at h
            obtain ⟨hk1, ht1, hr⟩ := h
            subst hk1; subst ht1; subst hr
            refine ⟨hk, ht, ?_⟩
            conv_lhs => rw [← e0]
            conv_lhs => rw [← e2]
            simp
          all_goals simp at h
      all_goals simp at h
  case _ => simp at h

theorem tryMatchMarker_length {l k t rest : List Char}
    (h : tryMatchMarker l = some (k, t, rest)) :
    rest.length < l.length := by
  obtain ⟨hk, ht, hl⟩ := tryMatchMarker_shape h
  subst hl
  simp
  omega


/-! ## Helper lemmas about the classification tail -/

theorem finishCompare_changedFields (cf : List String) :
    (finishCompare cf).changedFields = cf := by
  unfold finishCompare
  split
  · rfl
  · next h =>
    have : cf = [] := by
      cases cf with
      | nil => rfl
      | cons x xs => simp at h
    simp [this]

theorem finishCompare_action (cf : List String) :
    (finishCompare cf).action = if cf = [] then Action.skip else Action.update := by
  unfold finishCompare
  cases cf with
  | nil => simp
  | cons x xs => simp

/-- Any classification with a non-empty changed-field list is `update`. -/
theorem action_update_of_mem (x : String) (cd : ChangeDetection)
    (h : ∃ cf, cd = finishCompare cf) (hx : x ∈ cd.changedFields) :
    cd.action = .update := by
  obtain ⟨cf, rfl⟩ := h
  rw [finishCompare_changedFields] at hx
  rw [finishCompare_action]
  simp [List.ne_nil_of_mem hx]

/-! ## Helper lemmas about the resolution scan -/

theorem tryMatchMarker_not_lbrack {c : Char} {l : List Char} (h : c ≠ '[') :
    tryMatchMarker (c :: l) = none := by
  unfold tryMatchMarker
  split
  · next heq =>
    injection heq with h1 h2
    exact absurd h1 h
  · rfl

/-- A well-formed marker matches at the front of the scan. -/
theorem tryMatchMarker_build (k t rest : List Char) (hk : k ≠ [])
    (hkw : ∀ c ∈ k, isWordChar c = true) (ht : t ≠ [])
    (htb : ∀ c ∈ t, c ≠ ']') :
    tryMatchMarker ('[' :: '[' :: (k ++ ':' :: (t ++ ']' :: ']' :: rest))) =
      some (k, t, rest) := by
  unfold tryMatchMarker
  have e1 : spanP isWordChar (k ++ ':' :: (t ++ ']' :: ']' :: rest)) =
      (k, ':' :: (t ++ ']' :: ']' :: rest)) :=
    spanP_exact _ _ _ _ hkw (by decide)
  have e2 : spanP notRBracket (t ++ ']' :: ']' :: rest) =
      (t, ']' :: ']' :: rest) := by
    refine spanP_exact _ _ _ _ ?_ (by decide)
    intro c hc
    simpa [notRBracket] using htb c hc
  simp [e1, e2, hk, ht]

theorem resolveGoF_fuel_any (reg : Registry) :
    ∀ (n : Nat) (l : List Char), l.length ≤ n → ∀ (f g : Nat),
      l.length ≤ f → l.length ≤ g → resolveGoF reg f l = resolveGoF reg g l := by
  intro n
  induction n with
  | zero =>
    intro l hl f g _ _
    have : l = [] := List.length_eq_zero.mp (Nat.le_zero.mp hl)
    subst this
    match f, g with
    | 0, 0 => rfl
    | 0, _ + 1 => rfl
    | _ + 1, 0 => rfl
    | _ + 1, _ + 1 => rfl
  | succ n ih =>
    intro l hl f g hf hg
    match l with
    | [] =>
      match f, g with
      | 0, 0 => rfl
      | 0, _ + 1 => rfl
      | _ + 1, 0 => rfl
      | _ + 1, _ + 1 => rfl
    | c :: cs =>
      match f, g with
      | f + 1, g + 1 =>
        have hcs : cs.length ≤ n := by simp at hl; omega
        have hcf : cs.length ≤ f := by simp at hf; omega
        have hcg : cs.length ≤ g := by simp at hg; omega
        simp only [resolveGoF]
        rcases htm : tryMatchMarker (c :: cs) with _ | ⟨k, t, rest⟩
        · have e := ih cs hcs f g hcf hcg
          simp [e]
        · have hrl : rest.length ≤ cs.length := by
            have := tryMatchMarker_length htm
            simp at this
            omega
          have e := ih rest (le_trans hrl hcs) f g (le_trans hrl hcf)
            (le_trans hrl hcg)
          simp [e]

theorem resolveGoF_fuel (reg : Registry) (f : Nat) (l : List Char)
    (h : l.length ≤ f) : resolveGoF reg f l = resolveGoF reg l.length l :=
  resolveGoF_fuel_any reg l.length l le_rfl f l.length h le_rfl

theorem resolveGo_nil (reg : Registry) : resolveGo reg [] = ([], false) := rfl

theorem resolveGo_cons_none (reg : Registry) {c : Char} {cs : List Char}
    (h : tryMatchMarker (c :: cs) = none) :
    resolveGo reg (c :: cs) =
      (c :: (resolveGo reg cs).1, (resolveGo reg cs).2) := by
  unfold resolveGo
  simp only [List.length_cons, resolveGoF, h]

theorem truthyOptStr_true {o : Option String} (h : truthyOptStr o = true) :
    ∃ s, o = some s ∧ s ≠ "" := by
  cases o with
  | none => simp [truthyOptStr] at h
  | some s =>
    refine ⟨s, rfl, ?_⟩
    simpa [truthyOptStr] using h

theorem resolveGo_cons_hit (reg : Registry) {c : Char} {cs k t rest : List Char}
    {url : String} (h : tryMatchMarker (c :: cs) = some (k, t, rest))
    (hget : mapGet reg (makeKey ⟨k⟩ ⟨t⟩) = some url) (hurl : url ≠ "") :
    resolveGo reg (c :: cs) =
      ((markerLinkHtml url ⟨t⟩).data ++ (resolveGo reg rest).1, true) := by
  unfold resolveGo
  simp only [List.length_cons, resolveGoF, h, hget]
  have hrl : rest.length ≤ cs.length := by
    have := tryMatchMarker_length h
    simp at this
    omega
  rw [resolveGoF_fuel reg cs.length rest hrl]
  simp [truthyOptStr, hurl]

theorem resolveGo_cons_miss (reg : Registry) {c : Char} {cs k t rest : List Char}
    (h : tryMatchMarker (c :: cs) = some (k, t, rest))
    (hget : truthyOptStr (mapGet reg (makeKey ⟨k⟩ ⟨t⟩)) = false) :
    resolveGo reg (c :: cs) =
      ((jsTrim ⟨t⟩).data ++ (resolveGo reg rest).1,
       (resolveGo reg rest).2) := by
  unfold resolveGo
  simp only [List.length_cons, resolveGoF, h, hget]
  have hrl : rest.length ≤ cs.length := by
    have := tryMatchMarker_length h
    simp at this
    omega
  rw [resolveGoF_fuel reg cs.length rest hrl]
  simp

theorem markersOfF_fuel_any :
    ∀ (n : Nat) (l : List Char), l.length ≤ n → ∀ (f g : Nat),
      l.length ≤ f → l.length ≤ g → markersOfF f l = markersOfF g l := by
  intro n
  induction n with
  | zero =>
    intro l hl f g _ _
    have : l = [] := List.length_eq_zero.mp (Nat.le_zero.mp hl)
    subst this
    match f, g with
    | 0, 0 => rfl
    | 0, _ + 1 => rfl
    | _ + 1, 0 => rfl
    | _ + 1, _ + 1 => rfl
  | succ n ih =>
    intro l hl f g hf hg
    match l with
    | [] =>
      match f, g with
      | 0, 0 => rfl
      | 0, _ + 1 => rfl
      | _ + 1, 0 => rfl
      | _ + 1, _ + 1 => rfl
    | c :: cs =>
      match f, g with
      | f + 1, g + 1 =>
        have hcs : cs.length ≤ n := by simp at hl; omega
        have hcf : cs.length ≤ f := by simp at hf; omega
        have hcg : cs.length ≤ g := by simp at hg; omega
        simp only [markersOfF]
        rcases htm : tryMatchMarker (c :: cs) with _ | ⟨k, t, rest⟩
        · have e := ih cs hcs f g hcf hcg
          simp [e]
        · have hrl : rest.length ≤ cs.length := by
            have := tryMatchMarker_length htm
            simp at this
            omega
          have e := ih rest (le_trans hrl hcs) f g (le_trans hrl hcf)
            (le_trans hrl hcg)
          simp [e]

theorem markersOfF_fuel (f : Nat) (l : List Char) (h : l.length ≤ f) :
    markersOfF f l = markersOfF l.length l :=
  markersOfF_fuel_any l.length l le_rfl f l.length h le_rfl

theorem markersOf_nil : markersOf [] = [] := rfl

theorem markersOf_cons_none {c : Char} {cs : List Char}
    (h : tryMatchMarker (c :: cs) = none) :
    markersOf (c :: cs) = markersOf cs := by
  unfold markersOf
  simp only [List.length_cons, markersOfF, h]

theorem markersOf_cons_some {c : Char} {cs k t rest : List Char}
    (h : tryMatchMarker (c :: cs) = some (k, t, rest)) :
    markersOf (c :: cs) = (⟨k⟩, ⟨t⟩) :: markersOf rest := by
  unfold markersOf
  simp only [List.length_cons, markersOfF, h]
  have hrl : rest.length ≤ cs.length := by
    have := tryMatchMarker_length h
    simp at this
    omega
  rw [markersOfF_fuel cs.length rest hrl]

/-- The `hasLinks` flag is set exactly when some scanned marker's key
looks up to a truthy (non-empty) registered address. -/
theorem resolveGo_hasLinks_iff (reg : Registry) (l : List Char) :
    (resolveGo reg l).2 = true ↔
      ∃ m ∈ markersOf l,
        truthyOptStr (mapGet reg (makeKey m.1 m.2)) = true := by
  suffices H : ∀ (n : Nat) (l : List Char), l.length ≤ n →
      ((resolveGo reg l).2 = true ↔
        ∃ m ∈ markersOf l,
          truthyOptStr (mapGet reg (makeKey m.1 m.2)) = true) from
    H l.length l le_rfl
  intro n
  induction n with
  | zero =>
    intro l hl
    have : l = [] := List.length_eq_zero.mp (Nat.le_zero.mp hl)
    subst this
    simp [resolveGo_nil, markersOf_nil]
  | succ n ih =>
    intro l hl
    match l with
    | [] => simp [resolveGo_nil, markersOf_nil]
    | c :: cs =>
      rcases htm : tryMatchMarker (c :: cs) with _ | ⟨k, t, rest⟩
      · rw [resolveGo_cons_none reg htm, markersOf_cons_none htm]
        have hcs : cs.length ≤ n := by simp at hl; omega
        exact ih cs hcs
      · have hrest : rest.length ≤ n := by
          have hlt := tryMatchMarker_length htm
          simp at hl hlt
          omega
        cases hturl : truthyOptStr (mapGet reg (makeKey ⟨k⟩ ⟨t⟩)) with
        | false =>
          rw [resolveGo_cons_miss reg htm hturl, markersOf_cons_some htm]
          rw [ih rest hrest]
          constructor
          · rintro ⟨m, hm, htrue⟩
            exact ⟨m, by simp [hm], htrue⟩
          · rintro ⟨m, hm, htrue⟩
            simp at hm
            rcases hm with hm | hm
            · exfalso
              subst hm
              rw [hturl] at htrue
              exact absurd htrue (by decide)
            · exact ⟨m, hm, htrue⟩
        | true =>
          obtain ⟨url, hget, hurl⟩ := truthyOptStr_true hturl
          rw [resolveGo_cons_hit reg htm hget hurl, markersOf_cons_some htm]
          constructor
          · intro _
            exact ⟨(⟨k⟩, ⟨t⟩), by simp, hturl⟩
          · intro _
            rfl

theorem trimChars_length (l : List Char) : (trimChars l).length ≤ l.length := by
  unfold trimChars
  have h1 : ∀ (xs : List Char), (xs.dropWhile isJsSpace).length ≤ xs.length := by
    intro xs
    induction xs with
    | nil => simp
    | cons x xs ih =>
      by_cases hx : isJsSpace x = true
      · simp [List.dropWhile, hx]
        omega
      · simp [List.dropWhile, hx]
  calc ((l.dropWhile isJsSpace).reverse.dropWhile isJsSpace).reverse.length
      = ((l.dropWhile isJsSpace).reverse.dropWhile isJsSpace).length := by simp
    _ ≤ (l.dropWhile isJsSpace).reverse.length := h1 _
    _ = (l.dropWhile isJsSpace).length := by simp
    _ ≤ l.length := h1 _

/-- When no marker resolved, the output shrinks by at least one character
per scanned marker (each marker is replaced by its trimmed title, which
is shorter than the marker text). -/
theorem resolveGo_length_no_hit (reg : Registry) (l : List Char)
    (h : (resolveGo reg l).2 = false) :
    (resolveGo reg l).1.length + (markersOf l).length ≤ l.length := by
  suffices H : ∀ (n : Nat) (l : List Char), l.length ≤ n →
      (resolveGo reg l).2 = false →
      (resolveGo reg l).1.length + (markersOf l).length ≤ l.length from
    H l.length l le_rfl h
  clear h
  intro n
  induction n with
  | zero =>
    intro l hl _
    have : l = [] := List.length_eq_zero.mp (Nat.le_zero.mp hl)
    subst this
    simp [resolveGo_nil, markersOf_nil]
  | succ n ih =>
    intro l hl h
    match l with
    | [] => simp [resolveGo_nil, markersOf_nil]
    | c :: cs =>
      rcases htm : tryMatchMarker (c :: cs) with _ | ⟨k, t, rest⟩
      · rw [resolveGo_cons_none reg htm] at h ⊢
        rw [markersOf_cons_none htm]
        have hcs : cs.length ≤ n := by simp at hl; omega
        have hih := ih cs hcs h
        simp only [List.length_cons]
        omega
      · obtain ⟨hk, ht, hshape⟩ := tryMatchMarker_shape htm
        cases hturl : truthyOptStr (mapGet reg (makeKey ⟨k⟩ ⟨t⟩)) with
        | false =>
          rw [resolveGo_cons_miss reg htm hturl] at h ⊢
          rw [markersOf_cons_some htm]
          have hrest : rest.length ≤ n := by
            have hlt := tryMatchMarker_length htm
            simp at hl hlt
            omega
          have hih := ih rest hrest h
          have htrim : (jsTrim ⟨t⟩).data.length ≤ t.length :=
            trimChars_length t
          have hlen : (c :: cs).length =
              k.length + t.length + rest.length + 5 := by
            rw [hshape]
            simp
            omega
          have hkpos : 1 ≤ k.length := by
            cases k with
            | nil => exact absurd rfl hk
            | cons a as => simp
          simp only [List.length_append, List.length_cons]
          simp only [List.length_cons] at hlen
          omega
        | true =>
          obtain ⟨url, hget, hurl⟩ := truthyOptStr_true hturl
          rw [resolveGo_cons_hit reg htm hget hurl] at h
          simp at h

/-- The scan copies marker-free text verbatim: characters before a `[`
can never start a match. -/
theorem resolveGo_plain_copy (reg : Registry) (pre rest : List Char)
    (hpre : ∀ c ∈ pre, c ≠ '[') :
    resolveGo reg (pre ++ rest) =
      (pre ++ (resolveGo reg rest).1, (resolveGo reg rest).2) := by
  induction pre with
  | nil => simp
  | cons c cs ih =>
    have hc : c ≠ '[' := hpre c (by simp)
    have htm := tryMatchMarker_not_lbrack (l := cs ++ rest) hc
    rw [List.cons_append, resolveGo_cons_none reg htm]
    rw [ih (fun x hx => hpre x (by simp [hx]))]
    simp

/-! ## Helper lemmas about the parser's boundary test -/

theorem kindAlt_eq {l r : List Char} (h : kindAlt l = some r) :
    ∃ k ∈ itemKinds, l = k.data ++ r := by
  unfold kindAlt at h
  split at h
  · next r1 heq =>
    injection h with h
    exact ⟨"page", by simp [itemKinds], by rw [stripPre_eq heq, h]⟩
  · next =>
    split at h
    · next r1 heq =>
      injection h with h
      exact ⟨"assignment", by simp [itemKinds], by rw [stripPre_eq heq, h]⟩
    · next =>
      split at h
      · next r1 heq =>
        injection h with h
        exact ⟨"discussion", by simp [itemKinds], by rw [stripPre_eq heq, h]⟩
      · next =>
        split at h
        · next r1 heq =>
          injection h with h
          exact ⟨"header", by simp [itemKinds], by rw [stripPre_eq heq, h]⟩
        · next =>
          split at h
          · next r1 heq =>
            injection h with h
            exact ⟨"link", by simp [itemKinds], by rw [stripPre_eq heq, h]⟩
          · next =>
            exact ⟨"file", by simp [itemKinds], by rw [stripPre_eq h]⟩

/-- Structural content of a positive `isModuleItemHeader` test: two
hashes, whitespace, a bracketed known kind, whitespace. -/
theorem isModuleItemHeader_decomp {line : String}
    (h : isModuleItemHeader line = true) :
    ∃ w1 k w2 rest, k ∈ itemKinds ∧ w1 ≠ [] ∧ w2 ≠ [] ∧
      (∀ c ∈ w1, isJsSpace c = true) ∧ (∀ c ∈ w2, isJsSpace c = true) ∧
      line.data = '#' :: '#' :: w1 ++ '[' :: k.data ++ ']' :: w2 ++ rest := by
  unfold isModuleItemHeader at h
  split at h
  case _ r0 hdata =>
    by_cases hw : (spanP isJsSpace r0).1 = []
    · simp [hw] at h
    · rw [if_neg hw] at h
      split at h
      case _ r2 hr2 =>
        split at h
        case _ r3 hr3 =>
          unfold afterKind at h
          split at h
          case _ r4 =>
            simp only [ne_eq, decide_eq_true_eq] at h
            obtain ⟨k, hk, hkd⟩ := kindAlt_eq hr3
            refine ⟨(spanP isJsSpace r0).1, k, (spanP isJsSpace r4).1,
              (spanP isJsSpace r4).2, hk, hw, h, spanP_all _ _, spanP_all _ _,
              ?_⟩
            have e0 := spanP_append isJsSpace r0
            rw [hr2] at e0
            have e4 := spanP_append isJsSpace r4
            rw [hdata]
            conv_lhs => rw [← e0, hkd, ← e4]
            simp
          all_goals simp at h
        all_goals simp at h
      all_goals simp at h
  case _ => simp at h

/-- A line opening a deeper heading (`## `) is not a top-level module
line (`# `). -/
theorem strStartsWith_h2_not_h1 {line : String}
    (h : strStartsWith line "## " = true) :
    strStartsWith line "# " = false := by
  unfold strStartsWith at h ⊢
  rw [Option.isSome_iff_exists] at h
  obtain ⟨r, hr⟩ := h
  have hdata := stripPre_eq hr
  rw [hdata]
  rfl

/-- An ordinary second-level heading is not a body boundary. -/
theorem stopsItemBody_h2 {line : String}
    (h2 : strStartsWith line "## " = true)
    (hmih : isModuleItemHeader line = false) :
    stopsItemBody line = false := by
  unfold stopsItemBody
  rw [strStartsWith_h2_not_h1 h2, hmih]
  rfl

/-! ## Helper lemmas about the orchestrator's effects -/

theorem Eff.append_results (a b : Eff) :
    (a.append b).results = a.results + b.results := by
  simp [Eff.append, Eff.results]
  omega

/-- The per-kind upload bodies never push an error record themselves
(errors are recorded only by `uploadItem`'s catch), record at most one
create/update/skip result, and record exactly one when no call threw. -/
theorem uploadItemRun_shape (api : Api) (item : ParsedModuleItem)
    (mid : Nat) (data : CanvasData) :
    (uploadItemRun api item mid data).1.errors = [] ∧
    (uploadItemRun api item mid data).1.results ≤ 1 ∧
    ((uploadItemRun api item mid data).2 = none →
      (uploadItemRun api item mid data).1.results = 1) := by
  cases item with
  | page p =>
    simp only [uploadItemRun, uploadPageEff]
    repeat' split
    all_goals simp [Eff.results]
  | assignment a =>
    simp only [uploadItemRun, uploadAssignmentEff]
    repeat' split
    all_goals simp [Eff.results]
  | discussion d =>
    simp only [uploadItemRun, uploadDiscussionEff]
    repeat' split
    all_goals simp [Eff.results]
  | header h =>
    simp only [uploadItemRun, uploadHeaderEff]
    repeat' split
    all_goals simp [Eff.results]
  | link l =>
    simp only [uploadItemRun, uploadLinkEff]
    repeat' split
    all_goals simp [Eff.results]
  | file f =>
    simp only [uploadItemRun]
    simp [Eff.results]

theorem uploadItemEff_ok (api : Api) (item : ParsedModuleItem) (mid : Nat)
    (data : CanvasData) (h : (uploadItemRun api item mid data).2 = none) :
    uploadItemEff api item mid data = (uploadItemRun api item mid data).1 := by
  unfold uploadItemEff
  rcases hrun : uploadItemRun api item mid data with ⟨eff, err⟩
  rw [hrun] at h
  simp at h
  subst h
  rfl

theorem uploadItemEff_fail (api : Api) (item : ParsedModuleItem) (mid : Nat)
    (data : CanvasData) (e : String)
    (h : (uploadItemRun api item mid data).2 = some e) :
    (uploadItemEff api item mid data).errors =
      [⟨itemType item, itemTitle item, e⟩] ∧
    (uploadItemEff api item mid data).results =
      (uploadItemRun api item mid data).1.results := by
  have hsh := (uploadItemRun_shape api item mid data).1
  unfold uploadItemEff
  rcases hrun : uploadItemRun api item mid data with ⟨eff, err⟩
  rw [hrun] at h hsh
  simp at h
  subst h
  simp at hsh
  simp [Eff.results, hsh]

/-- A successful module-level step records no error and exactly one
result. -/
theorem uploadModuleStep_ok (api : Api) (m : ParsedModule)
    (data : CanvasData) (mid : Nat)
    (h : (uploadModuleStep api m data).2 = some mid) :
    (uploadModuleStep api m data).1.errors = [] ∧
    (uploadModuleStep api m data).1.results = 1 := by
  revert h
  simp only [uploadModuleStep]
  repeat' split
  all_goals intro h
  all_goals simp_all [Eff.results]

theorem foldl_append_errors {α : Type} (f : α → Eff) (items : List α)
    (e0 : Eff) :
    (items.foldl (fun acc it => acc.append (f it)) e0).errors =
      e0.errors ++ (items.map (fun it => (f it).errors)).flatten := by
  induction items generalizing e0 with
  | nil => simp
  | cons a l ih =>
    simp only [List.foldl_cons, List.map_cons, List.flatten_cons, ih]
    simp [Eff.append]

theorem foldl_append_results {α : Type} (f : α → Eff) (items : List α)
    (e0 : Eff) :
    (items.foldl (fun acc it => acc.append (f it)) e0).results =
      e0.results + (items.map (fun it => (f it).results)).sum := by
  induction items generalizing e0 with
  | nil => simp
  | cons a l ih =>
    simp only [List.foldl_cons, List.map_cons, List.sum_cons, ih]
    rw [Eff.append_results]
    omega

theorem sum_map_ones {α : Type} (g : α → Nat) (xs : List α)
    (h : ∀ x ∈ xs, g x = 1) : (xs.map g).sum = xs.length := by
  induction xs with
  | nil => simp
  | cons a l ih =>
    simp only [List.map_cons, List.sum_cons, List.length_cons]
    rw [h a (by simp), ih (fun x hx => h x (by simp [hx]))]
    omega

/-! ## Claim theorems -/

/-- C1: for every parsed module, page, assignment or discussion, an absent
remote snapshot item makes the comparator return the `create` action with
an empty changed-field list, whatever the parsed item's fields are. -/
theorem C1_create_iff_absent :
    (∀ m : ParsedModule, compareModule m none = ⟨true, [], .create⟩) ∧
    (∀ p : ParsedPage, comparePage p none = ⟨true, [], .create⟩) ∧
    (∀ a : ParsedAssignment, compareAssignment a none = ⟨true, [], .create⟩) ∧
    (∀ d : ParsedDiscussion, compareDiscussion d none = ⟨true, [], .create⟩) :=
  ⟨fun _ => rfl, fun _ => rfl, fun _ => rfl, fun _ => rfl⟩

/-- C4: converting the markup string through the markup-to-rich-text step
and normalizing yields the same canonical string as normalizing the
rich-text rendering directly. -/
theorem C4_normalization_equivalence :
    normalizeHtml (markdownToSimpleHtml "Hello **world**") =
      normalizeHtml "<p>Hello <strong>world</strong></p>" := by
  decide

/-- C7 counterexample: the module comparator tests titles with strict,
untrimmed equality, so a parsed title and a remote name that differ only
in trailing whitespace are reported as a changed `title` field and force
an `update` — refuting the exact-match-after-trim reading. -/
theorem C7_counterexample :
    "title" ∈ (compareModule ⟨"Intro", none, []⟩
        (some ⟨1, "Intro ", 1, 0, ""⟩)).changedFields ∧
      (compareModule ⟨"Intro", none, []⟩
        (some ⟨1, "Intro ", 1, 0, ""⟩)).action = .update := by
  decide

/-- C7 amended: the plain-string title comparison of the module, page and
assignment comparators is exact untrimmed string equality — `title` is
listed as changed precisely when the two sides differ as raw strings, so
titles differing only in surrounding whitespace do count as changes. -/
theorem C7_title_exact_untrimmed :
    (∀ (m : ParsedModule) (c : CanvasModule),
      "title" ∈ (compareModule m (some c)).changedFields ↔ m.title ≠ c.name) ∧
    (∀ (p : ParsedPage) (c : CanvasPage),
      "title" ∈ (comparePage p (some c)).changedFields ↔ p.title ≠ c.title) ∧
    (∀ (a : ParsedAssignment) (c : CanvasAssignment),
      "title" ∈ (compareAssignment a (some c)).changedFields ↔
        a.title ≠ c.name) := by
  refine ⟨fun m c => ?_, fun p c => ?_, fun a c => ?_⟩
  · simp only [compareModule, finishCompare_changedFields]
    split_ifs <;> simp_all
  · simp only [comparePage, finishCompare_changedFields]
    split_ifs <;> simp_all
  · simp only [compareAssignment, finishCompare_changedFields]
    split_ifs <;> simp_all

/-- C2: the full run over the scenario document creates the module, the
page (in document order, before the assignment) and the assignment; the
page is created with the cross-reference still unresolved (its created
body literally contains `[[Assignment:HW1]]`); and the link-resolution
phase issues exactly one additional page update whose content carries a
hyperlink to the created assignment's address. -/
theorem C2_scenario_full_run :
    (uploadRun c2Api [c2Module] CanvasData.empty).calls =
      [.createModule "Week 1",
       .createPage ⟨"Overview", "<p>See [[Assignment:HW1]]</p>", some true⟩,
       .createModuleItem 10 ⟨"Overview", "Page", none, some "overview", none⟩,
       .createAssignment ⟨"HW1", "", none, none, none, none, some true⟩,
       .createModuleItem 10 ⟨"HW1", "Assignment", some 55, none, none⟩,
       .updatePage "overview"
         ⟨none,
          some "See <a href=\"https://c.x/courses/77/assignments/55\">HW1</a>",
          none⟩] ∧
    ((uploadRun c2Api [c2Module] CanvasData.empty).calls.filter
      isUpdatePageCall).length = 1 ∧
    (uploadRun c2Api [c2Module] CanvasData.empty).created = 3 ∧
    (uploadRun c2Api [c2Module] CanvasData.empty).updated = 0 ∧
    (uploadRun c2Api [c2Module] CanvasData.empty).skipped = 0 ∧
    (uploadRun c2Api [c2Module] CanvasData.empty).errors = [] := by
  decide

/-- C3: in a run over a module's item sequence in which exactly one
item's remote mutation call throws, every other item is still processed
and records exactly one create/update/skip result, the run is a total
function (per-item failures are caught, never propagated), and the final
error list holds exactly one structured entry carrying the failing item's
kind and title. -/
theorem C3_partial_failure_isolation :
    ∀ (api : Api) (data : CanvasData) (title : String) (cmid : Option Nat)
      (pre : List ParsedModuleItem) (bad : ParsedModuleItem)
      (post : List ParsedModuleItem) (mid : Nat) (msg : String),
      (uploadModuleStep api ⟨title, cmid, pre ++ bad :: post⟩ data).2 =
        some mid →
      (∀ it ∈ pre ++ post, (uploadItemRun api it mid data).2 = none) →
      (uploadItemRun api bad mid data).2 = some msg →
      (uploadModuleEff api ⟨title, cmid, pre ++ bad :: post⟩ data).errors =
        [⟨itemType bad, itemTitle bad, msg⟩] ∧
      (∀ it ∈ pre ++ post, (uploadItemEff api it mid data).results = 1) ∧
      (uploadModuleEff api ⟨title, cmid, pre ++ bad :: post⟩ data).results =
        1 + (pre.length + post.length) +
          (uploadItemEff api bad mid data).results ∧
      (uploadItemEff api bad mid data).results ≤ 1 := by
  intro api data title cmid pre bad post mid msg hstep hok hbad
  have hresults : ∀ it ∈ pre ++ post,
      (uploadItemEff api it mid data).results = 1 := by
    intro it hit
    rw [uploadItemEff_ok api it mid data (hok it hit)]
    exact (uploadItemRun_shape api it mid data).2.2 (hok it hit)
  have herr0 : ∀ it ∈ pre ++ post,
      (uploadItemEff api it mid data).errors = [] := by
    intro it hit
    rw [uploadItemEff_ok api it mid data (hok it hit)]
    exact (uploadItemRun_shape api it mid data).1
  have hbadfacts := uploadItemEff_fail api bad mid data msg hbad
  have hbadle : (uploadItemEff api bad mid data).results ≤ 1 := by
    rw [hbadfacts.2]
    exact (uploadItemRun_shape api bad mid data).2.1
  have hstepfacts := uploadModuleStep_ok api _ data mid hstep
  have hmod : uploadModuleEff api ⟨title, cmid, pre ++ bad :: post⟩ data =
      (pre ++ bad :: post).foldl
        (fun acc it => acc.append (uploadItemEff api it mid data))
        (uploadModuleStep api ⟨title, cmid, pre ++ bad :: post⟩ data).1 := by
    unfold uploadModuleEff
    rcases hs : uploadModuleStep api ⟨title, cmid, pre ++ bad :: post⟩ data
      with ⟨eff, onid⟩
    rw [hs] at hstep
    simp at hstep
    subst hstep
    rfl
  refine ⟨?_, hresults, ?_, hbadle⟩
  · rw [hmod, foldl_append_errors]
    rw [hstepfacts.1]
    simp only [List.nil_append, List.map_append, List.map_cons]
    rw [List.flatten_append]
    have hpre : (pre.map
        (fun it => (uploadItemEff api it mid data).errors)).flatten = [] := by
      apply List.flatten_eq_nil_iff.mpr
      intro l hl
      simp at hl
      obtain ⟨it, hit, hl⟩ := hl
      rw [← hl]
      exact herr0 it (by simp [hit])
    have hpost : (post.map
        (fun it => (uploadItemEff api it mid data).errors)).flatten = [] := by
      apply List.flatten_eq_nil_iff.mpr
      intro l hl
      simp at hl
      obtain ⟨it, hit, hl⟩ := hl
      rw [← hl]
      exact herr0 it (by simp [hit])
    simp [hpre, hpost, hbadfacts.1]
  · rw [hmod, foldl_append_results]
    rw [hstepfacts.2]
    simp only [List.map_append, List.map_cons]
    rw [List.sum_append, List.sum_cons]
    have hpre : (pre.map
        (fun it => (uploadItemEff api it mid data).results)).sum =
        pre.length :=
      sum_map_ones _ pre (fun it hit => hresults it (by simp [hit]))
    have hpost : (post.map
        (fun it => (uploadItemEff api it mid data).results)).sum =
        post.length :=
      sum_map_ones _ post (fun it hit => hresults it (by simp [hit]))
    rw [hpre, hpost]
    omega

/-- C3 witness: a three-item module whose middle item's module-item call
throws, the theorem's hypotheses discharged by evaluation. -/
theorem C3_partial_failure_isolation_witness :
    (uploadModuleEff
        ⟨"https://c.x", "7", fun _ => .ok 10, fun _ _ => .ok (),
          fun _ => .ok "u", fun _ _ => .ok (), fun _ => .ok 1,
          fun _ _ => .ok (), fun _ => .ok 2, fun _ _ => .ok (),
          fun _ p => if p.type = "ExternalUrl" then .error "boom"
                     else .ok ()⟩
        ⟨"M", none,
          [.header ⟨"A", none⟩, .link ⟨"B", none, "https://b"⟩,
           .header ⟨"C", none⟩]⟩
        CanvasData.empty).errors = [⟨"link", "B", "boom"⟩] := by
  have h := C3_partial_failure_isolation
    ⟨"https://c.x", "7", fun _ => .ok 10, fun _ _ => .ok (),
      fun _ => .ok "u", fun _ _ => .ok (), fun _ => .ok 1,
      fun _ _ => .ok (), fun _ => .ok 2, fun _ _ => .ok (),
      fun _ p => if p.type = "ExternalUrl" then .error "boom" else .ok ()⟩
    CanvasData.empty "M" none
    [.header ⟨"A", none⟩] (.link ⟨"B", none, "https://b"⟩)
    [.header ⟨"C", none⟩] 10 "boom"
    (by decide) (by decide) (by decide)
  exact h.1

/-- C9: a content-bearing item classified `skip` that carries a remote
identity is still registered in the Link Registry during the materialize
phase — the skip branch appends the `(kind, title, address)` registration
while issuing no remote call and recording no error. -/
theorem C9_skip_still_registers :
    (∀ (api : Api) (data : CanvasData) (page : ParsedPage) (mid : Nat)
       (pid : String),
      page.canvasPageId = some pid → pid ≠ "" →
      (comparePage page (lookupByStr data.getPage page.canvasPageId)).action
        = .skip →
      uploadPageEff api page mid data =
        (⟨0, 0, 1, [],
          [⟨"page", page.title,
            api.baseUrl ++ "/courses/" ++ api.courseId ++ "/pages/" ++ pid⟩],
          [], []⟩, none)) ∧
    (∀ (api : Api) (data : CanvasData) (a : ParsedAssignment) (mid : Nat)
       (aid : Nat),
      a.canvasAssignmentId = some aid → aid ≠ 0 →
      (compareAssignment a
        (lookupByNum data.getAssignment a.canvasAssignmentId)).action
        = .skip →
      uploadAssignmentEff api a mid data =
        (⟨0, 0, 1, [],
          [⟨"assignment", a.title,
            api.baseUrl ++ "/courses/" ++ api.courseId ++ "/assignments/" ++
              toString aid⟩],
          [], []⟩, none)) ∧
    (∀ (api : Api) (data : CanvasData) (d : ParsedDiscussion) (mid : Nat)
       (did : Nat),
      d.canvasDiscussionId = some did → did ≠ 0 →
      (compareDiscussion d
        (lookupByNum data.getDiscussion d.canvasDiscussionId)).action
        = .skip →
      uploadDiscussionEff api d mid data =
        (⟨0, 0, 1, [],
          [⟨"discussion", d.title,
            api.baseUrl ++ "/courses/" ++ api.courseId ++
              "/discussion_topics/" ++ toString did⟩],
          [], []⟩, none)) := by
  refine ⟨?_, ?_, ?_⟩
  · intro api data page mid pid hpid hne hskip
    simp only [uploadPageEff]
    rw [hskip]
    simp only [hpid]
    rw [if_neg hne]
  · intro api data a mid aid haid hne hskip
    simp only [uploadAssignmentEff]
    rw [hskip]
    simp only [haid]
    rw [if_neg hne]
  · intro api data d mid did hdid hne hskip
    simp only [uploadDiscussionEff]
    rw [hskip]
    simp only [hdid]
    rw [if_neg hne]

/-- C9 witness: a page, an assignment and a discussion whose remote
copies are identical to the parsed items, applied to the theorem with
the skip classifications evaluated. -/
theorem C9_skip_still_registers_witness :
    uploadPageEff
        ⟨"https://c.x", "7", fun _ => .ok 10, fun _ _ => .ok (),
          fun _ => .ok "u", fun _ _ => .ok (), fun _ => .ok 1,
          fun _ _ => .ok (), fun _ => .ok 2, fun _ _ => .ok (),
          fun _ _ => .ok ()⟩
        ⟨"Syllabus", some "syllabus", some 4, ""⟩ 10
        ⟨[], [("syllabus", ⟨9, "syllabus", "Syllabus", .val "", "", ""⟩)],
          [], []⟩ =
      (⟨0, 0, 1, [],
        [⟨"page", "Syllabus", "https://c.x/courses/7/pages/syllabus"⟩],
        [], []⟩, none) :=
  C9_skip_still_registers.1
    ⟨"https://c.x", "7", fun _ => .ok 10, fun _ _ => .ok (),
      fun _ => .ok "u", fun _ _ => .ok (), fun _ => .ok 1,
      fun _ _ => .ok (), fun _ => .ok 2, fun _ _ => .ok (),
      fun _ _ => .ok ()⟩
    ⟨[], [("syllabus", ⟨9, "syllabus", "Syllabus", .val "", "", ""⟩)], [], []⟩
    ⟨"Syllabus", some "syllabus", some 4, ""⟩ 10 "syllabus"
    rfl (by decide) (by decide)

/-- C6 counterexample: for a graded discussion whose parsed points field
is absent and whose remote nested assignment carries a null
`points_possible`, the discussion comparator lists `points` as changed
and that single disagreement forces an `update` — refuting the claim for
the graded-discussion kind. -/
theorem C6_counterexample :
    compareDiscussion
        ⟨"D", some 5, some 1, "", .val false, true, true, none, none⟩
        (some ⟨5, "D", .val "", "threaded", "", false,
          some ⟨.null, .null⟩⟩) =
      ⟨true, ["points"], .update⟩ := by
  decide

/-- C6 amended: the assignment comparator null-coalesces both points
fields, so an absent parsed value against a null remote value is not a
change; the graded-discussion comparator instead compares points with a
strict inequality, so there an absent parsed value against a null remote
value is listed as the changed `points` field and forces an `update`. -/
theorem C6_points_null_handling :
    (∀ (a : ParsedAssignment) (c : CanvasAssignment),
      a.pointsPossible = none → c.points_possible = .null →
      "points_possible" ∉ (compareAssignment a (some c)).changedFields) ∧
    (∀ (d : ParsedDiscussion) (c : CanvasDiscussion)
        (asg : DiscussionAssignment),
      d.graded = true → c.assignment = some asg →
      d.pointsPossible = none → asg.points_possible = .null →
      "points" ∈ (compareDiscussion d (some c)).changedFields ∧
        (compareDiscussion d (some c)).action = .update) := by
  constructor
  · intro a c ha hc
    simp only [compareAssignment, finishCompare_changedFields]
    simp only [ha, hc]
    split_ifs <;> simp_all [NullOr.toOption]
  · intro d c asg hg hasg hd hnull
    have hmem : "points" ∈ (compareDiscussion d (some c)).changedFields := by
      simp only [compareDiscussion, finishCompare_changedFields]
      simp only [hg, hasg, hd, hnull]
      split_ifs <;> simp_all [strictNeNum]
    exact ⟨hmem, action_update_of_mem "points" _ ⟨_, rfl⟩ hmem⟩

/-- C5: after registering `("page", "Syllabus", "https://x/1")`, resolving
text containing `[[Page:syllabus]]` (keys case- and
whitespace-insensitive) yields a hyperlink to the registered address; and
every well-formed marker whose key is unregistered is replaced by its
bare trimmed title — the marker text itself never survives into the
output, and resolution is a total function, so it never throws. -/
theorem C5_link_resolution :
    (resolve (register [] "page" "Syllabus" "https://x/1")
        "see [[Page:syllabus]] now" =
      ("see <a href=\"https://x/1\">syllabus</a> now", true)) ∧
    (∀ (reg : Registry) (pre k t post : List Char),
      (∀ c ∈ pre, c ≠ '[') → k ≠ [] → (∀ c ∈ k, isWordChar c = true) →
      t ≠ [] → (∀ c ∈ t, c ≠ ']') →
      mapGet reg (makeKey ⟨k⟩ ⟨t⟩) = none →
      resolveGo reg
          (pre ++ '[' :: '[' :: (k ++ ':' :: (t ++ ']' :: ']' :: post))) =
        (pre ++ (jsTrim ⟨t⟩).data ++ (resolveGo reg post).1,
         (resolveGo reg post).2)) := by
  constructor
  · decide
  · intro reg pre k t post hpre hk hkw ht htb hget
    rw [resolveGo_plain_copy reg pre _ hpre]
    rw [resolveGo_cons_miss reg (tryMatchMarker_build k t post hk hkw ht htb)
      (by rw [hget]; rfl)]
    simp

/-- C5 witness: the unregistered-marker half applied at a concrete
marker, its hypotheses discharged by evaluation. -/
theorem C5_link_resolution_witness :
    resolveGo ([] : Registry)
        ("x ".data ++ '[' :: '[' :: ("Page".data ++ ':' ::
          ("Missing".data ++ ']' :: ']' :: ("".data)))) =
      ("x ".data ++ (jsTrim ⟨"Missing".data⟩).data ++
        (resolveGo ([] : Registry) "".data).1,
       (resolveGo ([] : Registry) "".data).2) :=
  C5_link_resolution.2 [] "x ".data "Page".data "Missing".data "".data
    (by decide) (by decide) (by decide) (by decide) (by decide) (by decide)

/-- C10: `resolve` reports `hasLinks = true` exactly when at least one
scanned marker actually resolves — its key looks up to a truthy
registered address (the code's `if (url)`: an address registered as the
empty string is falsy and does not resolve); when every marker is
unregistered the flag is false even though the returned text differs
from the input whenever a marker was present, and the link-resolution
phase then issues no remote call for that queued item. -/
theorem C10_hasLinks_iff_registered :
    ∀ (registry : Registry) (content : String) (api : Api) (qt : String)
      (qid : ItemIdVal),
      ((resolve registry content).2 = true ↔
        ∃ m ∈ markersOf content.data,
          truthyOptStr (mapGet registry (makeKey m.1 m.2)) = true) ∧
      ((∀ m ∈ markersOf content.data,
          mapGet registry (makeKey m.1 m.2) = none) →
        (resolve registry content).2 = false ∧
        (markersOf content.data ≠ [] →
          (resolve registry content).1 ≠ content) ∧
        resolveItemEff api registry ⟨qt, qid, content⟩ = Eff.empty) := by
  intro registry content api qt qid
  constructor
  · by_cases hc : content = ""
    · subst hc
      constructor
      · intro hfalse
        simp [resolve] at hfalse
      · rintro ⟨m, hm, _⟩
        have : markersOf ("" : String).data = [] := markersOf_nil
        rw [this] at hm
        simp at hm
    · unfold resolve
      rw [if_neg hc]
      exact resolveGo_hasLinks_iff registry content.data
  · intro hall
    have hgo : (resolveGo registry content.data).2 = false := by
      cases hb : (resolveGo registry content.data).2
      · rfl
      · obtain ⟨m, hm, htrue⟩ :=
          (resolveGo_hasLinks_iff registry content.data).mp hb
        rw [hall m hm] at htrue
        exact absurd htrue (by decide)
    have h2 : (resolve registry content).2 = false := by
      unfold resolve
      split
      · rfl
      · exact hgo
    refine ⟨h2, ?_, ?_⟩
    · intro hne heq
      have hcne : content ≠ "" := by
        intro hc
        subst hc
        exact hne markersOf_nil
      have hres : (resolve registry content).1.data =
          (resolveGo registry content.data).1 := by
        unfold resolve
        rw [if_neg hcne]
      have hlen := resolveGo_length_no_hit registry content.data hgo
      have hml : 1 ≤ (markersOf content.data).length := by
        cases hmm : markersOf content.data
        · exact absurd hmm hne
        · simp
      have hdata : (resolveGo registry content.data).1 = content.data := by
        rw [← hres, heq]
      have := congrArg List.length hdata
      omega
    · have : (resolve registry ((⟨qt, qid, content⟩ : QueuedItem).qcontent)).2
          = false := h2
      simp [resolveItemEff, this]

/-- C10 witness: the unregistered-markers half applied at a concrete
content with one marker. -/
theorem C10_hasLinks_iff_registered_witness :
    (resolve [] "[[page:Missing]]").2 = false ∧
    (resolve [] "[[page:Missing]]").1 ≠ "[[page:Missing]]" ∧
    resolveItemEff
      ⟨"https://c.x", "7", fun _ => .ok 0, fun _ _ => .ok (),
        fun _ => .ok "", fun _ _ => .ok (), fun _ => .ok 0,
        fun _ _ => .ok (), fun _ => .ok 0, fun _ _ => .ok (),
        fun _ _ => .ok ()⟩
      [] ⟨"page", .pageUrl "u", "[[page:Missing]]"⟩ = Eff.empty := by
  have h := (C10_hasLinks_iff_registered [] "[[page:Missing]]"
    ⟨"https://c.x", "7", fun _ => .ok 0, fun _ _ => .ok (),
      fun _ => .ok "", fun _ _ => .ok (), fun _ => .ok 0,
      fun _ _ => .ok (), fun _ => .ok 0, fun _ _ => .ok (),
      fun _ _ => .ok ()⟩
    "page" (.pageUrl "u")).2 (by decide)
  exact ⟨h.1, h.2.1 (by decide), h.2.2⟩

/-- C8: an item body is terminated only by a top-level module line
(`# `) or by a section-marker line carrying one of the six known kind
markers, and an ordinary second-level heading line without a kind marker
is collected into the body instead of starting a new item. -/
theorem C8_body_boundaries :
    (∀ line : String, stopsItemBody line = true →
      strStartsWith line "# " = true ∨
      ∃ w1 k w2 rest, k ∈ itemKinds ∧ w1 ≠ [] ∧ w2 ≠ [] ∧
        (∀ c ∈ w1, isJsSpace c = true) ∧ (∀ c ∈ w2, isJsSpace c = true) ∧
        line.data = '#' :: '#' :: w1 ++ '[' :: k.data ++ ']' :: w2 ++ rest) ∧
    (∀ (pre : List String) (mid : String) (post : List String),
      (∀ l ∈ pre, stopsItemBody l = false) →
      strStartsWith mid "## " = true → isModuleItemHeader mid = false →
      (collectBody (pre ++ mid :: post)).1 =
        pre ++ mid :: (collectBody post).1) := by
  constructor
  · intro line hline
    unfold stopsItemBody at hline
    rcases Bool.or_eq_true_iff.mp hline with h1 | h2
    · exact Or.inl h1
    · exact Or.inr (isModuleItemHeader_decomp h2)
  · intro pre mid post hpre h2 hmih
    have hstop := stopsItemBody_h2 h2 hmih
    induction pre with
    | nil => simp [collectBody, hstop]
    | cons l ls ih =>
      have hl : stopsItemBody l = false := hpre l (by simp)
      have ihl := ih (fun x hx => hpre x (by simp [hx]))
      simp [collectBody, hl, ihl]

/-- C8 witness: at a concrete body whose second line is an ordinary
second-level heading, both halves of the theorem applied with their
hypotheses discharged by evaluation. -/
theorem C8_body_boundaries_witness :
    (strStartsWith "# Week 2" "# " = true ∨
      ∃ w1 k w2 rest, k ∈ itemKinds ∧ w1 ≠ [] ∧ w2 ≠ [] ∧
        (∀ c ∈ w1, isJsSpace c = true) ∧ (∀ c ∈ w2, isJsSpace c = true) ∧
        ("# Week 2" : String).data =
          '#' :: '#' :: w1 ++ '[' :: k.data ++ ']' :: w2 ++ rest) ∧
    (collectBody ["text", "## Notes", "tail", "## [page] P"]).1 =
      ["text", "## Notes", "tail"] := by
  constructor
  · exact C8_body_boundaries.1 "# Week 2" (by decide)
  · have h := C8_body_boundaries.2 ["text"] "## Notes" ["tail", "## [page] P"]
      (by decide) (by decide) (by decide)
    have h2 : (collectBody ["tail", "## [page] P"]).1 = ["tail"] := by decide
    rw [h2] at h
    simpa using h

/-- C6 witness: the amended theorem applied at the counterexample inputs
(and an assignment instance with absent parsed and null remote points). -/
theorem C6_points_null_handling_witness :
    ("points_possible" ∉ (compareAssignment
        ⟨"A", some 3, some 1, "", none, none, none, none⟩
        (some ⟨3, "A", .val "", .null, .null, "points", [], false⟩)
      ).changedFields) ∧
    ("points" ∈ (compareDiscussion
        ⟨"D", some 5, some 1, "", .val false, true, true, none, none⟩
        (some ⟨5, "D", .val "", "threaded", "", false,
          some ⟨.null, .null⟩⟩)).changedFields) :=
  ⟨C6_points_null_handling.1
      ⟨"A", some 3, some 1, "", none, none, none, none⟩
      ⟨3, "A", .val "", .null, .null, "points", [], false⟩ rfl rfl,
   (C6_points_null_handling.2
      ⟨"D", some 5, some 1, "", .val false, true, true, none, none⟩
      ⟨5, "D", .val "", "threaded", "", false, some ⟨.null, .null⟩⟩
      ⟨.null, .null⟩ rfl rfl rfl rfl).1⟩

end CanvasSync
